import Mathlib

/-!
Verification of the HerbivorePredator grid engine
(`src/domain/environment.py`, class `Environment`).

The Python matrix is embedded as `List (List Cell)`; Python integers are
`Int`/`Nat`; Python list indexing (with its negative-index wraparound) and
slicing are embedded explicitly (`pyNormIdx`, `pySlice`); exceptions are
embedded with `Except EnvErr`.  The external `AliveEntity` collaborator
(`domain/entitites.py` is not part of the sources) is modelled from the
spec's capability contract: an agent is a numeric identity plus a mutable
`health`; its `get_move` policy, `eat` and `give_birth` capabilities are
arbitrary functions supplied in a `Beh` record.  Python's `random`
placement sampling is modelled by threading an explicit supply of
candidate coordinates; exhaustion of the supply is a model-level error
(`randExhausted`) standing for the non-termination of the sampling loop.
-/

set_option maxHeartbeats 2000000
set_option maxRecDepth 4000

namespace HP

/-- Content of one cell of the environment matrix.  In the Python source a
cell is `None` (the boundary marker written by `_create_blank_matrix`),
`0` (vacant), a `HerbivoreFood(nutrition)` instance, or an `AliveEntity`
instance (represented here by its numeric identity). -/
inductive Cell where
  | boundary : Cell
  | empty : Cell
  | food : Nat → Cell
  | agent : Nat → Cell
deriving DecidableEq, Repr

/-- The environment matrix, `Environment.matrix` in the source. -/
abbrev Grid := List (List Cell)

/-- Embeds `domain.objects.Coordinates` (an x, y pair of Python ints). -/
structure Coordinates where
  x : Int
  y : Int
deriving DecidableEq, Repr

/-- Embeds `domain.objects.Movement`, the nine-valued movement enumeration
dispatched on by `Environment._make_move`. -/
inductive Movement where
  | stay | up | down | left | right | upLeft | upRight | downLeft | downRight
deriving DecidableEq, Repr

/-- Error outcomes of the engine.  `notVacant`, `unsupportedMovement`,
`objectNotExists` and `setupError` embed the exception classes declared at
the top of `environment.py`; `indexError` embeds a Python `IndexError`
from an out-of-range list subscript; `attributeNone` embeds the Python
`AttributeError` raised when `_get_observation` dereferences a `None`
coordinate; `randExhausted` is the model artifact for an exhausted
random-coordinate supply. -/
inductive EnvErr where
  | notVacant | unsupportedMovement | objectNotExists | setupError
  | randExhausted | indexError | attributeNone
deriving DecidableEq, Repr

/-- Instrumentation events recording what the engine asked of the agents
during a tick: `dispatched id` marks the `get_move`/`_make_move`
dispatch of an agent, `birthAsked id` a `give_birth` call, `ate id n` an
`eat` call passing food of nutrition `n`, `erased id` the death removal,
and `skipped id` a scan visit absorbed by the `moved_entity_cash`. -/
inductive Event where
  | dispatched : Nat → Event
  | birthAsked : Nat → Event
  | ate : Nat → Nat → Event
  | erased : Nat → Event
  | skipped : Nat → Event
deriving DecidableEq, Repr

/-- Normalization of a Python list subscript: a negative index counts from
the end of the list; an index out of range after normalization is an
`IndexError` (`none`). -/
def pyNormIdx (len : Nat) (i : Int) : Option Nat :=
  let j : Int := if i < 0 then i + len else i
  if 0 ≤ j ∧ j < len then some j.toNat else none

/-- Python slice `l[a:b]` (step 1): negative endpoints count from the end,
then both endpoints are clamped into `[0, len]`. -/
def pySlice {α : Type} (l : List α) (a b : Int) : List α :=
  let n : Int := l.length
  let a2 : Int := if a < 0 then max (n + a) 0 else min a n
  let b2 : Int := if b < 0 then max (n + b) 0 else min b n
  (l.drop a2.toNat).take (b2 - a2).toNat

/-- Reads the matrix at an already-normalized (row, column) position. -/
def mgetN (m : Grid) (p : Nat × Nat) : Option Cell :=
  m[p.1]?.bind fun row => row[p.2]?

/-- Writes the matrix at an already-normalized (row, column) position
(no-op out of range; every engine write is preceded by an in-range read). -/
def msetN (m : Grid) (p : Nat × Nat) (v : Cell) : Grid :=
  match m[p.1]? with
  | none => m
  | some row => m.set p.1 (row.set p.2 v)

/-- Normalizes a `Coordinates` subscript pair against the matrix the way
Python evaluates `matrix[c.y][c.x]`: first the row index `c.y` against the
outer list, then the column index `c.x` against that row. -/
def normPos (m : Grid) (c : Coordinates) : Option (Nat × Nat) :=
  match pyNormIdx m.length c.y with
  | none => none
  | some y =>
    match pyNormIdx (m[y]?.getD []).length c.x with
    | none => none
    | some x => some (y, x)

/-- Reads `matrix[c.y][c.x]` with Python index semantics (`none` embeds an
`IndexError`). -/
def mget (m : Grid) (c : Coordinates) : Option Cell :=
  match normPos m c with
  | none => none
  | some p => mgetN m p

/-- Recognizer for the vacant cell (Python `place == 0`). -/
def isEmptyCell : Cell → Bool
  | Cell.empty => true
  | _ => false

/-- Recognizer for a food cell (Python `isinstance(place, HerbivoreFood)`). -/
def isFoodCell : Cell → Bool
  | Cell.food _ => true
  | _ => false

/-- Recognizer for an agent cell (Python `isinstance(place, AliveEntity)`). -/
def isAgentCell : Cell → Bool
  | Cell.agent _ => true
  | _ => false

/-- Embeds `Environment._create_blank_matrix` (environment.py lines
112-116): the outer comprehension runs `i` over `range(width)` and the
inner one runs `j` over `range(height)`; a cell is `0` exactly when
`i not in (0, width - 1) and j not in (0, height - 1)`, else `None`. -/
def create_blank_matrix (width height : Nat) : Grid :=
  (List.range width).map fun i =>
    (List.range height).map fun j =>
      if (i ≠ 0 ∧ i ≠ width - 1) ∧ (j ≠ 0 ∧ j ≠ height - 1) then Cell.empty
      else Cell.boundary

/-- Embeds the `Environment.has_space_left` property (lines 44-50). -/
def has_space_left (m : Grid) : Bool :=
  m.any fun row => row.any isEmptyCell

/-- Embeds the `Environment.game_over` property (lines 52-59): `False` as
soon as some cell holds an `AliveEntity`. -/
def game_over (m : Grid) : Bool :=
  m.all fun row => row.all fun c => ! isAgentCell c

/-- Scan of one row for the cell holding the given agent (the Python
`element == obj` comparison is object identity for distinct live
entities), returning the column index of the first hit. -/
def findAgentIdx (row : List Cell) (id : Nat) : Option Nat :=
  match row with
  | [] => none
  | c :: rest =>
    if c = Cell.agent id then some 0
    else (findAgentIdx rest id).map (· + 1)

/-- Row-major scan of the rows starting at row index `y`, returning the
coordinates of the first cell holding the agent. -/
def gocRows (rows : List (List Cell)) (id : Nat) (y : Nat) : Option Coordinates :=
  match rows with
  | [] => none
  | r :: rs =>
    match findAgentIdx r id with
    | some x => some ⟨(x : Int), (y : Int)⟩
    | none => gocRows rs id (y + 1)

/-- Embeds `Environment._get_object_coordinates` (lines 167-171): the
row-major scan returning the first coordinates whose cell equals the
object, or `None`. -/
def get_object_coordinates (m : Grid) (id : Nat) : Option Coordinates :=
  gocRows m id 0

/-- Embeds `Environment._get_observation` (lines 173-177), with Python
slice semantics on both axes. -/
def get_observation (m : Grid) (c : Coordinates) : Grid :=
  (pySlice m (c.y - 1) (c.y + 2)).map fun row => pySlice row (c.x - 1) (c.x + 2)

/-- Embeds `Environment.get_living_object_observation` (lines 80-83).
When the object is absent, `_get_object_coordinates` returns `None` and
`_get_observation` then evaluates `None.y`, which raises `AttributeError`
(embedded as `attributeNone`) rather than any engine exception class. -/
def get_living_object_observation (m : Grid) (id : Nat) : Except EnvErr Grid :=
  match get_object_coordinates m id with
  | none => .error .attributeNone
  | some c => .ok (get_observation m c)

/-- One round of the sampling loop of `_set_object_randomly` (lines
189-195): take candidate coordinates from the supply until one addresses
a vacant cell, then write the object there (`_respawn_object`, whose
vacancy recheck is satisfied).  An out-of-range candidate raises
`IndexError` inside `_is_empty_coordinates`; an exhausted supply is the
model artifact for the loop never finding a vacant cell. -/
def sorGo (m : Grid) (obj : Cell) : List Coordinates → Except EnvErr (Grid × List Coordinates)
  | [] => .error .randExhausted
  | c :: rest =>
    match normPos m c with
    | none => .error .indexError
    | some p =>
      if mgetN m p = some Cell.empty then .ok (msetN m p obj, rest)
      else sorGo m obj rest

/-- Embeds `Environment._set_object_randomly` (lines 185-195): raise
`SetupEnvironmentError` when `has_space_left` is false, else sample until
a vacant cell is found. -/
def set_object_randomly (m : Grid) (obj : Cell) (rands : List Coordinates) :
    Except EnvErr (Grid × List Coordinates) :=
  if has_space_left m then sorGo m obj rands else .error .setupError

/-- Embeds the `coordinates_around` comprehension of `_set_obj_near`
(lines 198-200): `y` runs over `range(-1, 2)` in the outer position and
`x` over `range(-1, 2)` in the inner one. -/
def coordinates_around (near : Coordinates) : List Coordinates :=
  [⟨near.x - 1, near.y - 1⟩, ⟨near.x, near.y - 1⟩, ⟨near.x + 1, near.y - 1⟩,
   ⟨near.x - 1, near.y⟩, ⟨near.x, near.y⟩, ⟨near.x + 1, near.y⟩,
   ⟨near.x - 1, near.y + 1⟩, ⟨near.x, near.y + 1⟩, ⟨near.x + 1, near.y + 1⟩]

/-- Walk of the nine neighbour candidates of `_set_obj_near` (lines
202-205): place the object at the first vacant one, else fall back to
`_set_object_randomly` (lines 207-208). -/
def sonGo (m : Grid) (obj : Cell) (rands : List Coordinates) :
    List Coordinates → Except EnvErr (Grid × List Coordinates)
  | [] => set_object_randomly m obj rands
  | c :: rest =>
    match normPos m c with
    | none => .error .indexError
    | some p =>
      if mgetN m p = some Cell.empty then .ok (msetN m p obj, rands)
      else sonGo m obj rands rest

/-- Embeds `Environment._set_obj_near` (lines 197-208). -/
def set_obj_near (m : Grid) (near : Coordinates) (obj : Cell) (rands : List Coordinates) :
    Except EnvErr (Grid × List Coordinates) :=
  sonGo m obj rands (coordinates_around near)

/-- Engine configuration consumed from `Setup` in `Environment.__init__`
(lines 33-42) plus the `setup.herbivore.birth_after` flag read in
`_get_next_state` (line 100), with Python truthiness as `Bool`. -/
structure Config where
  width : Nat
  height : Nat
  replenish_food : Bool
  food_nutrition : Nat
  herbivore_food_amount : Nat
  birth_after : Bool

/-- The externally supplied agent capabilities (modelled from the spec's
capability contract, `domain/entitites.py` not being among the sources):
`getMove` is the pure decision policy fed an observation window; `eatFn`
maps the eater's identity, current health and the food's nutrition to the
post-`eat` health; `giveBirth` maps the parent's identity and health to an
optional newborn initial health together with the parent's post-call
health. -/
structure Beh where
  getMove : Nat → Grid → Movement
  eatFn : Nat → Nat → Nat → Nat
  giveBirth : Nat → Nat → Option Nat × Nat

/-- The mutable world state: the matrix, the health of every agent
identity, and the next fresh identity used for newborns (modelling Python
object identity: every object already on the grid has identity below
`nextId`, and a newborn gets a fresh one). -/
structure St where
  matrix : Grid
  health : Nat → Nat
  nextId : Nat

/-- Embeds `Environment._make_move` (lines 118-152).  The object's origin
is re-derived by `_get_object_coordinates` and its absence raises
`ObjectNotExistsInEnvironment`; `STAY` returns immediately; otherwise the
target cell is computed by the `elif` ladder (the final `else` raising
`UnsupportedMovement` is unreachable for the closed enumeration); a
vacant target receives the object and the origin is cleared; a
`HerbivoreFood` target is eaten (the `eat` call recorded as an `ate`
event together with the eater's health update), the object occupies the
target, the origin is cleared, and with `replenish_food` a fresh food of
the configured nutrition is placed randomly; a `None` (boundary) or
`AliveEntity` target falls through every branch, leaving the state
untouched. -/
def targetOf (c : Coordinates) : Movement → Coordinates
  | .stay => c
  | .up => ⟨c.x, c.y - 1⟩
  | .down => ⟨c.x, c.y + 1⟩
  | .left => ⟨c.x - 1, c.y⟩
  | .right => ⟨c.x + 1, c.y⟩
  | .upLeft => ⟨c.x - 1, c.y - 1⟩
  | .upRight => ⟨c.x + 1, c.y - 1⟩
  | .downLeft => ⟨c.x - 1, c.y + 1⟩
  | .downRight => ⟨c.x + 1, c.y + 1⟩

def make_move (cfg : Config) (beh : Beh) (st : St) (rands : List Coordinates)
    (mv : Movement) (id : Nat) : Except EnvErr (St × List Coordinates × List Event) :=
  match get_object_coordinates st.matrix id with
  | none => .error .objectNotExists
  | some fc =>
    if mv = Movement.stay then .ok (st, rands, [])
    else
      match normPos st.matrix (targetOf fc mv) with
      | none => .error .indexError
      | some t =>
        match mgetN st.matrix t with
        | none => .error .indexError
        | some Cell.empty =>
          .ok ({ st with
                 matrix := msetN (msetN st.matrix t (Cell.agent id))
                   (fc.y.toNat, fc.x.toNat) Cell.empty }, rands, [])
        | some (Cell.food n) =>
          let st1 : St :=
            { matrix := msetN (msetN st.matrix t (Cell.agent id))
                (fc.y.toNat, fc.x.toNat) Cell.empty
              health := fun j => if j = id then beh.eatFn id (st.health id) n else st.health j
              nextId := st.nextId }
          if cfg.replenish_food then
            match set_object_randomly st1.matrix (Cell.food cfg.food_nutrition) rands with
            | .error e => .error e
            | .ok (m2, r2) => .ok ({ st1 with matrix := m2 }, r2, [Event.ate id n])
          else .ok (st1, rands, [Event.ate id n])
        | some _ => .ok (st, rands, [])

/-- Accumulator of the row-major scan of `_get_next_state`: the world
state, the `moved_entity_cash` (as agent identities), the remaining
random-coordinate supply, and the instrumentation event log. -/
structure TickAcc where
  st : St
  cache : List Nat
  rands : List Coordinates
  events : List Event

/-- The birth block of one scan visit (lines 100-103): when `birth_after`
is configured, `give_birth` is called on the visited agent (its health
effect on the parent applied); a produced offspring receives the fresh
identity `nextId`, is placed by `_set_obj_near` next to the parent's
visit coordinates and is appended to `moved_entity_cash`. -/
def birthPhase (cfg : Config) (beh : Beh) (acc : TickAcc) (y x : Nat) (id : Nat) :
    Except EnvErr TickAcc :=
  if cfg.birth_after then
    let b := beh.giveBirth id (acc.st.health id)
    let st1 : St :=
      { acc.st with health := fun j => if j = id then b.2 else acc.st.health j }
    match b.1 with
    | none => .ok { acc with st := st1, events := acc.events ++ [Event.birthAsked id] }
    | some childHealth =>
      match set_obj_near st1.matrix ⟨(x : Int), (y : Int)⟩ (Cell.agent st1.nextId) acc.rands with
      | .error e => .error e
      | .ok (m2, r2) =>
        .ok { st := { matrix := m2,
                      health := fun j => if j = st1.nextId then childHealth else st1.health j,
                      nextId := st1.nextId + 1 },
              cache := acc.cache ++ [st1.nextId],
              rands := r2,
              events := acc.events ++ [Event.birthAsked id] }
  else .ok acc

/-- One cell visit of the `_get_next_state` scan (lines 88-108), reading
the live matrix at the moment the position is reached: a non-agent cell
does nothing; an agent with zero health is erased (`_erase_object` at the
visit position, in range by construction); an agent already in
`moved_entity_cash` is skipped; otherwise the birth block runs, the
observation is built, the policy is asked for a movement and `_make_move`
applies it, after which the agent is appended to the cash. -/
def visitCell (cfg : Config) (beh : Beh) (acc : TickAcc) (y x : Nat) :
    Except EnvErr TickAcc :=
  match mgetN acc.st.matrix (y, x) with
  | some (Cell.agent id) =>
    if acc.st.health id = 0 then
      .ok { acc with
            st := { acc.st with matrix := msetN acc.st.matrix (y, x) Cell.empty }
            events := acc.events ++ [Event.erased id] }
    else if id ∈ acc.cache then
      .ok { acc with events := acc.events ++ [Event.skipped id] }
    else
      match birthPhase cfg beh acc y x id with
      | .error e => .error e
      | .ok a1 =>
        let obs := get_observation a1.st.matrix ⟨(x : Int), (y : Int)⟩
        match make_move cfg beh a1.st a1.rands (beh.getMove id obs) id with
        | .error e => .error e
        | .ok (st2, r2, evs) =>
          .ok { st := st2
                cache := a1.cache ++ [id]
                rands := r2
                events := a1.events ++ [Event.dispatched id] ++ evs }
  | _ => .ok acc

/-- The row-major position list of the scan, taken from the matrix shape
at the start of the tick (every engine mutation preserves the shape). -/
def positionsOf (m : Grid) : List (Nat × Nat) :=
  (List.range m.length).flatMap fun y =>
    (List.range (m[y]?.getD []).length).map fun x => (y, x)

/-- Embeds `Environment._get_next_state` (lines 85-110): the row-major
scan over the matrix, mutated in place while being scanned. -/
def get_next_state (cfg : Config) (beh : Beh) (st : St) (rands : List Coordinates) :
    Except EnvErr TickAcc :=
  (positionsOf st.matrix).foldlM
    (fun acc p => visitCell cfg beh acc p.1 p.2)
    { st := st, cache := [], rands := rands, events := [] }

/-- Embeds `Environment.step_living_regime` (lines 76-78). -/
def step_living_regime (cfg : Config) (beh : Beh) (st : St) (rands : List Coordinates) :
    Except EnvErr (Grid × Bool) :=
  match get_next_state cfg beh st rands with
  | .error e => .error e
  | .ok acc => .ok (acc.st.matrix, game_over acc.st.matrix)

/-- Sequential random placement of a list of objects, the loop bodies of
`setup_initial_state` (lines 70-74). -/
def place_list (m : Grid) (objs : List Cell) (rands : List Coordinates) :
    Except EnvErr (Grid × List Coordinates) :=
  match objs with
  | [] => .ok (m, rands)
  | o :: rest =>
    match set_object_randomly m o rands with
    | .error e => .error e
    | .ok (m2, r2) => place_list m2 rest r2

/-- Embeds `Environment.setup_initial_state` (lines 64-74): reset the
matrix to blank, raise `SetupEnvironmentError` when no herbivores were
registered, then place every herbivore and afterwards
`herbivore_food_amount` food units of the configured nutrition, each by
`_set_object_randomly`. -/
def setup_initial_state (cfg : Config) (herbivores : List Nat) (rands : List Coordinates) :
    Except EnvErr (Grid × List Coordinates) :=
  let m := create_blank_matrix cfg.width cfg.height
  if herbivores.length < 1 then .error .setupError
  else
    match place_list m (herbivores.map Cell.agent) rands with
    | .error e => .error e
    | .ok (m2, r2) =>
      place_list m2 (List.replicate cfg.herbivore_food_amount (Cell.food cfg.food_nutrition)) r2

/-! ### Basic facts about the matrix primitives -/

theorem lt_of_getElem?_some {α : Type} {l : List α} {i : Nat} {a : α}
    (h : l[i]? = some a) : i < l.length := by
  by_contra hn
  rw [List.getElem?_eq_none (Nat.le_of_not_lt hn)] at h
  cases h

theorem msetN_eq_set {m : Grid} {p : Nat × Nat} {row : List Cell} (v : Cell)
    (hrow : m[p.1]? = some row) : msetN m p v = m.set p.1 (row.set p.2 v) := by
  unfold msetN
  rw [hrow]

theorem msetN_eq_self {m : Grid} {p : Nat × Nat} (v : Cell)
    (hrow : m[p.1]? = none) : msetN m p v = m := by
  unfold msetN
  rw [hrow]

theorem length_msetN (m : Grid) (p : Nat × Nat) (v : Cell) :
    (msetN m p v).length = m.length := by
  cases hrow : m[p.1]? with
  | none => rw [msetN_eq_self v hrow]
  | some row => rw [msetN_eq_set v hrow]; simp

theorem rowlen_msetN (m : Grid) (p : Nat × Nat) (v : Cell) (y : Nat) :
    ((msetN m p v)[y]?.getD []).length = (m[y]?.getD []).length := by
  cases hrow : m[p.1]? with
  | none => rw [msetN_eq_self v hrow]
  | some row =>
    rw [msetN_eq_set v hrow]
    by_cases hy : p.1 = y
    · subst hy
      rw [List.getElem?_set_self (lt_of_getElem?_some hrow), hrow]
      simp
    · rw [List.getElem?_set_ne hy]

theorem mgetN_msetN_self {m : Grid} {p : Nat × Nat} {c : Cell} (v : Cell)
    (h : mgetN m p = some c) : mgetN (msetN m p v) p = some v := by
  unfold mgetN at *
  cases hrow : m[p.1]? with
  | none => rw [hrow] at h; cases h
  | some row =>
    rw [hrow] at h
    simp only [Option.bind_eq_bind, Option.some_bind] at h
    rw [msetN_eq_set v hrow, List.getElem?_set_self (lt_of_getElem?_some hrow)]
    simp only [Option.bind_eq_bind, Option.some_bind]
    rw [List.getElem?_set_self (lt_of_getElem?_some h)]

theorem mgetN_msetN_ne {p q : Nat × Nat} (m : Grid) (v : Cell)
    (h : q ≠ p) : mgetN (msetN m p v) q = mgetN m q := by
  unfold mgetN
  cases hrow : m[p.1]? with
  | none => rw [msetN_eq_self v hrow]
  | some row =>
    rw [msetN_eq_set v hrow]
    by_cases hy : p.1 = q.1
    · have hx : q.2 ≠ p.2 := fun hx => h (Prod.ext hy.symm hx)
      rw [← hy, List.getElem?_set_self (lt_of_getElem?_some hrow), hrow]
      simp only [Option.bind_eq_bind, Option.some_bind]
      rw [List.getElem?_set_ne (fun he => hx he.symm)]
    · rw [List.getElem?_set_ne hy]

theorem mgetN_msetN_cases (m : Grid) (p q : Nat × Nat) (v : Cell) :
    mgetN (msetN m p v) q = mgetN m q ∨ mgetN (msetN m p v) q = some v := by
  by_cases hq : q = p
  · subst hq
    cases hc : mgetN m q with
    | none =>
      left
      cases hrow : m[q.1]? with
      | none => rw [msetN_eq_self v hrow]; exact hc
      | some row =>
        have hcell : row[q.2]? = none := by
          unfold mgetN at hc
          rw [hrow] at hc
          simpa using hc
        rw [msetN_eq_set v hrow]
        unfold mgetN
        rw [List.getElem?_set_self (lt_of_getElem?_some hrow)]
        simp only [Option.bind_eq_bind, Option.some_bind]
        rw [List.getElem?_eq_none]
        rw [List.length_set]
        exact List.getElem?_eq_none_iff.1 hcell
    | some c => right; exact mgetN_msetN_self v hc
  · left; exact mgetN_msetN_ne m v hq

theorem normPos_shape {m m2 : Grid} (c : Coordinates)
    (hlen : m2.length = m.length)
    (hrow : ∀ y : Nat, (m2[y]?.getD []).length = (m[y]?.getD []).length) :
    normPos m2 c = normPos m c := by
  unfold normPos
  rw [hlen]
  cases pyNormIdx m.length c.y with
  | none => rfl
  | some y =>
    dsimp only
    rw [hrow y]

theorem normPos_msetN (m : Grid) (p : Nat × Nat) (v : Cell) (c : Coordinates) :
    normPos (msetN m p v) c = normPos m c :=
  normPos_shape c (length_msetN m p v) (rowlen_msetN m p v)

/-- Cell counting over the matrix, used to state food/agent/vacancy
totals. -/
def countPGrid (q : Cell → Bool) (m : Grid) : Nat :=
  (m.map fun r => r.countP q).sum

theorem countP_set {q : Cell → Bool} (row : List Cell) (j : Nat) {c : Cell} (v : Cell)
    (h : row[j]? = some c) :
    (row.set j v).countP q + (if q c then 1 else 0)
      = row.countP q + (if q v then 1 else 0) := by
  induction row generalizing j with
  | nil => cases h
  | cons a rest ih =>
    cases j with
    | zero =>
      simp only [List.getElem?_cons_zero, Option.some_inj] at h
      subst h
      simp only [List.set_cons_zero, List.countP_cons]
      omega
    | succ j =>
      simp only [List.getElem?_cons_succ] at h
      simp only [List.set_cons_succ, List.countP_cons]
      have := ih j h
      omega

theorem sum_countP_set (q : Cell → Bool) (m : Grid) (i : Nat) (row row2 : List Cell)
    (hrow : m[i]? = some row) :
    (List.map (fun r => r.countP q) (m.set i row2)).sum + row.countP q
      = (List.map (fun r => r.countP q) m).sum + row2.countP q := by
  induction m generalizing i with
  | nil => cases hrow
  | cons r rs ih =>
    cases i with
    | zero =>
      simp only [List.getElem?_cons_zero, Option.some_inj] at hrow
      subst hrow
      simp only [List.set_cons_zero, List.map_cons, List.sum_cons]
      omega
    | succ i =>
      simp only [List.getElem?_cons_succ] at hrow
      simp only [List.set_cons_succ, List.map_cons, List.sum_cons]
      have := ih i hrow
      omega

theorem countPGrid_msetN {q : Cell → Bool} (m : Grid) (p : Nat × Nat) {c : Cell} (v : Cell)
    (h : mgetN m p = some c) :
    countPGrid q (msetN m p v) + (if q c then 1 else 0)
      = countPGrid q m + (if q v then 1 else 0) := by
  unfold mgetN at h
  cases hrow : m[p.1]? with
  | none => rw [hrow] at h; cases h
  | some row =>
    rw [hrow] at h
    simp only [Option.bind_eq_bind, Option.some_bind] at h
    rw [msetN_eq_set v hrow]
    unfold countPGrid
    have hs := sum_countP_set q m p.1 row (row.set p.2 v) hrow
    have hc := @countP_set q row p.2 _ v h
    omega

/-! ### Facts about the object-coordinate scan -/

theorem findAgentIdx_spec {row : List Cell} {id x : Nat}
    (h : findAgentIdx row id = some x) : row[x]? = some (Cell.agent id) := by
  induction row generalizing x with
  | nil => cases h
  | cons c rest ih =>
    unfold findAgentIdx at h
    by_cases hc : c = Cell.agent id
    · rw [if_pos hc] at h
      cases h
      simpa using hc
    · rw [if_neg hc] at h
      cases hx : findAgentIdx rest id with
      | none => rw [hx] at h; cases h
      | some x0 =>
        rw [hx] at h
        simp only [Option.map_some'] at h
        cases h
        simpa using ih hx

theorem findAgentIdx_eq_none_iff {row : List Cell} {id : Nat} :
    findAgentIdx row id = none ↔ ∀ c ∈ row, c ≠ Cell.agent id := by
  induction row with
  | nil => simp [findAgentIdx]
  | cons c rest ih =>
    unfold findAgentIdx
    by_cases hc : c = Cell.agent id
    · simp [hc]
    · simp only [if_neg hc, Option.map_eq_none', ih, List.mem_cons]
      constructor
      · rintro hrest a (rfl | ha)
        · exact hc
        · exact hrest a ha
      · intro hall a ha
        exact hall a (Or.inr ha)

theorem gocRows_spec {rows : List (List Cell)} {id : Nat} {c : Coordinates} :
    ∀ {y0 : Nat}, gocRows rows id y0 = some c →
    ∃ k x : Nat, c.x = (x : Int) ∧ c.y = ((y0 + k : Nat) : Int) ∧
      mgetN rows (k, x) = some (Cell.agent id) := by
  induction rows with
  | nil => intro y0 h; cases h
  | cons r rs ih =>
    intro y0 h
    unfold gocRows at h
    cases hf : findAgentIdx r id with
    | some x =>
      rw [hf] at h
      cases h
      refine ⟨0, x, rfl, by simp, ?_⟩
      unfold mgetN
      simpa using findAgentIdx_spec hf
    | none =>
      rw [hf] at h
      obtain ⟨k, x, hx, hy, hm⟩ := ih h
      refine ⟨k + 1, x, hx, ?_, ?_⟩
      · rw [hy]
        congr 1
        omega
      · unfold mgetN at hm ⊢
        simpa using hm

theorem goc_spec {m : Grid} {id : Nat} {c : Coordinates}
    (h : get_object_coordinates m id = some c) :
    0 ≤ c.x ∧ 0 ≤ c.y ∧ mgetN m (c.y.toNat, c.x.toNat) = some (Cell.agent id) := by
  obtain ⟨k, x, hx, hy, hm⟩ := gocRows_spec h
  rw [hx, hy]
  refine ⟨Int.ofNat_nonneg x, Int.ofNat_nonneg _, ?_⟩
  simpa using hm

theorem gocRows_eq_none_iff {rows : List (List Cell)} {id : Nat} :
    ∀ {y0 : Nat}, (gocRows rows id y0 = none ↔ ∀ r ∈ rows, findAgentIdx r id = none) := by
  induction rows with
  | nil => intro y0; simp [gocRows]
  | cons r rs ih =>
    intro y0
    unfold gocRows
    cases hf : findAgentIdx r id with
    | some x => simp [hf]
    | none => simpa [hf] using ih

theorem goc_none_iff {m : Grid} {id : Nat} :
    get_object_coordinates m id = none ↔ ∀ row ∈ m, ∀ c ∈ row, c ≠ Cell.agent id := by
  unfold get_object_coordinates
  rw [gocRows_eq_none_iff]
  constructor
  · intro h row hrow
    exact findAgentIdx_eq_none_iff.1 (h row hrow)
  · intro h row hrow
    exact findAgentIdx_eq_none_iff.2 (h row hrow)

/-! ### Facts about random and near placement -/

/-- Placement result relation: the output matrix is the input with one
previously vacant cell overwritten by the placed object. -/
def PlacedAt (m m2 : Grid) (obj : Cell) : Prop :=
  ∃ p, mgetN m p = some Cell.empty ∧ m2 = msetN m p obj

theorem sorGo_ok {m : Grid} {obj : Cell} {rands : List Coordinates}
    {m2 : Grid} {r2 : List Coordinates}
    (h : sorGo m obj rands = .ok (m2, r2)) : PlacedAt m m2 obj := by
  induction rands with
  | nil => cases h
  | cons c0 rest ih =>
    unfold sorGo at h
    cases hn : normPos m c0 with
    | none => rw [hn] at h; cases h
    | some p =>
      rw [hn] at h
      dsimp only at h
      by_cases he : mgetN m p = some Cell.empty
      · rw [if_pos he] at h
        cases h
        exact ⟨p, he, rfl⟩
      · rw [if_neg he] at h
        exact ih h

theorem set_object_randomly_ok {m : Grid} {obj : Cell} {rands : List Coordinates}
    {m2 : Grid} {r2 : List Coordinates}
    (h : set_object_randomly m obj rands = .ok (m2, r2)) : PlacedAt m m2 obj := by
  unfold set_object_randomly at h
  by_cases hs : has_space_left m = true
  · rw [if_pos hs] at h
    exact sorGo_ok h
  · rw [if_neg hs] at h
    cases h

theorem sonGo_ok {m : Grid} {obj : Cell} {rands : List Coordinates}
    {m2 : Grid} {r2 : List Coordinates} {cands : List Coordinates}
    (h : sonGo m obj rands cands = .ok (m2, r2)) : PlacedAt m m2 obj := by
  induction cands with
  | nil => exact set_object_randomly_ok h
  | cons c0 rest ih =>
    unfold sonGo at h
    cases hn : normPos m c0 with
    | none => rw [hn] at h; cases h
    | some p =>
      rw [hn] at h
      dsimp only at h
      by_cases he : mgetN m p = some Cell.empty
      · rw [if_pos he] at h
        cases h
        exact ⟨p, he, rfl⟩
      · rw [if_neg he] at h
        exact ih h

theorem set_obj_near_ok {m : Grid} {near : Coordinates} {obj : Cell}
    {rands : List Coordinates} {m2 : Grid} {r2 : List Coordinates}
    (h : set_obj_near m near obj rands = .ok (m2, r2)) : PlacedAt m m2 obj :=
  sonGo_ok h

theorem placed_shape {m m2 : Grid} {obj : Cell} (h : PlacedAt m m2 obj) :
    m2.length = m.length ∧ ∀ y : Nat, (m2[y]?.getD []).length = (m[y]?.getD []).length := by
  obtain ⟨p, _, rfl⟩ := h
  exact ⟨length_msetN m p obj, rowlen_msetN m p obj⟩

theorem placed_keep {m m2 : Grid} {obj : Cell} (h : PlacedAt m m2 obj)
    {q : Nat × Nat} {c : Cell} (hq : mgetN m q = some c) (hc : c ≠ Cell.empty) :
    mgetN m2 q = some c := by
  obtain ⟨p, hp, rfl⟩ := h
  have hne : q ≠ p := by
    intro he
    subst he
    rw [hq] at hp
    exact hc (Option.some_inj.1 hp)
  rw [mgetN_msetN_ne m obj hne, hq]

theorem placed_cases {m m2 : Grid} {obj : Cell} (h : PlacedAt m m2 obj) (q : Nat × Nat) :
    mgetN m2 q = mgetN m q ∨ mgetN m2 q = some obj := by
  obtain ⟨p, _, rfl⟩ := h
  exact mgetN_msetN_cases m p q obj

theorem placed_count {m m2 : Grid} {obj : Cell} (h : PlacedAt m m2 obj) (q : Cell → Bool) :
    countPGrid q m2 + (if q Cell.empty then 1 else 0)
      = countPGrid q m + (if q obj then 1 else 0) := by
  obtain ⟨p, hp, rfl⟩ := h
  exact countPGrid_msetN m p obj hp

/-! ### Branch behaviour of the move resolver -/

theorem make_move_stay (cfg : Config) (beh : Beh) (st : St) (rands : List Coordinates)
    (id : Nat) (fc : Coordinates)
    (hfrom : get_object_coordinates st.matrix id = some fc) :
    make_move cfg beh st rands Movement.stay id = .ok (st, rands, []) := by
  unfold make_move
  rw [hfrom]
  try dsimp only
  rw [if_pos rfl]

theorem make_move_blocked {cfg : Config} {beh : Beh} {st : St} {rands : List Coordinates}
    {mv : Movement} {id : Nat} {fc : Coordinates} {t : Nat × Nat}
    (hfrom : get_object_coordinates st.matrix id = some fc)
    (hmv : mv ≠ Movement.stay)
    (ht : normPos st.matrix (targetOf fc mv) = some t)
    (hcell : mgetN st.matrix t = some Cell.boundary ∨
      ∃ e, mgetN st.matrix t = some (Cell.agent e)) :
    make_move cfg beh st rands mv id = .ok (st, rands, []) := by
  unfold make_move
  rw [hfrom]
  try dsimp only
  rw [if_neg hmv, ht]
  try dsimp only
  rcases hcell with hb | ⟨e, ha⟩
  · rw [hb]
  · rw [ha]

theorem make_move_into_empty {cfg : Config} {beh : Beh} {st : St} {rands : List Coordinates}
    {mv : Movement} {id : Nat} {fc : Coordinates} {t : Nat × Nat}
    (hfrom : get_object_coordinates st.matrix id = some fc)
    (hmv : mv ≠ Movement.stay)
    (ht : normPos st.matrix (targetOf fc mv) = some t)
    (hcell : mgetN st.matrix t = some Cell.empty) :
    make_move cfg beh st rands mv id =
      .ok ({ st with matrix := msetN (msetN st.matrix t (Cell.agent id)) (fc.y.toNat, fc.x.toNat) Cell.empty }, rands, []) := by
  unfold make_move
  rw [hfrom]
  try dsimp only
  rw [if_neg hmv, ht]
  try dsimp only
  rw [hcell]

theorem make_move_into_food_no_replenish {cfg : Config} {beh : Beh} {st : St}
    {rands : List Coordinates} {mv : Movement} {id n : Nat} {fc : Coordinates} {t : Nat × Nat}
    (hfrom : get_object_coordinates st.matrix id = some fc)
    (hmv : mv ≠ Movement.stay)
    (ht : normPos st.matrix (targetOf fc mv) = some t)
    (hcell : mgetN st.matrix t = some (Cell.food n))
    (hrep : cfg.replenish_food = false) :
    make_move cfg beh st rands mv id =
      .ok ({ matrix := msetN (msetN st.matrix t (Cell.agent id)) (fc.y.toNat, fc.x.toNat) Cell.empty,
             health := fun j => if j = id then beh.eatFn id (st.health id) n else st.health j,
             nextId := st.nextId }, rands, [Event.ate id n]) := by
  unfold make_move
  rw [hfrom]
  try dsimp only
  rw [if_neg hmv, ht]
  try dsimp only
  rw [hcell]
  try dsimp only
  rw [hrep]
  simp

theorem make_move_into_food_replenish {cfg : Config} {beh : Beh} {st : St}
    {rands : List Coordinates} {mv : Movement} {id n : Nat} {fc : Coordinates} {t : Nat × Nat}
    {m2 : Grid} {r2 : List Coordinates}
    (hfrom : get_object_coordinates st.matrix id = some fc)
    (hmv : mv ≠ Movement.stay)
    (ht : normPos st.matrix (targetOf fc mv) = some t)
    (hcell : mgetN st.matrix t = some (Cell.food n))
    (hrep : cfg.replenish_food = true)
    (hsor : set_object_randomly
        (msetN (msetN st.matrix t (Cell.agent id)) (fc.y.toNat, fc.x.toNat) Cell.empty)
        (Cell.food cfg.food_nutrition) rands = .ok (m2, r2)) :
    make_move cfg beh st rands mv id =
      .ok ({ matrix := m2,
             health := fun j => if j = id then beh.eatFn id (st.health id) n else st.health j,
             nextId := st.nextId }, r2, [Event.ate id n]) := by
  unfold make_move
  rw [hfrom]
  try dsimp only
  rw [if_neg hmv, ht]
  try dsimp only
  rw [hcell]
  try dsimp only
  rw [hrep, hsor]
  simp

theorem make_move_effects {cfg : Config} {beh : Beh} {st : St} {rands : List Coordinates}
    {mv : Movement} {id : Nat} {st2 : St} {r2 : List Coordinates} {evs : List Event}
    (h : make_move cfg beh st rands mv id = .ok (st2, r2, evs)) :
    (∀ q, mgetN st2.matrix q = mgetN st.matrix q ∨ mgetN st2.matrix q = some Cell.empty ∨
        mgetN st2.matrix q = some (Cell.agent id) ∨
        mgetN st2.matrix q = some (Cell.food cfg.food_nutrition)) ∧
    (∀ j, j ≠ id → st2.health j = st.health j) ∧
    st2.nextId = st.nextId ∧
    (evs = [] ∨ ∃ n, evs = [Event.ate id n]) ∧
    st2.matrix.length = st.matrix.length ∧
    (∀ y : Nat, (st2.matrix[y]?.getD []).length = (st.matrix[y]?.getD []).length) := by
  unfold make_move at h
  cases hgoc : get_object_coordinates st.matrix id with
  | none => rw [hgoc] at h; cases h
  | some fc =>
    rw [hgoc] at h
    try dsimp only at h
    by_cases hmv : mv = Movement.stay
    · rw [if_pos hmv] at h
      cases h
      exact ⟨fun q => Or.inl rfl, fun j _ => rfl, rfl, Or.inl rfl, rfl, fun y => rfl⟩
    · rw [if_neg hmv] at h
      cases hn : normPos st.matrix (targetOf fc mv) with
      | none => rw [hn] at h; cases h
      | some t =>
        rw [hn] at h
        try dsimp only at h
        cases hcell : mgetN st.matrix t with
        | none => rw [hcell] at h; cases h
        | some cell =>
          rw [hcell] at h
          have hmid : ∀ q, mgetN (msetN (msetN st.matrix t (Cell.agent id))
              (fc.y.toNat, fc.x.toNat) Cell.empty) q = mgetN st.matrix q ∨
              mgetN (msetN (msetN st.matrix t (Cell.agent id))
                (fc.y.toNat, fc.x.toNat) Cell.empty) q = some Cell.empty ∨
              mgetN (msetN (msetN st.matrix t (Cell.agent id))
                (fc.y.toNat, fc.x.toNat) Cell.empty) q = some (Cell.agent id) := by
            intro q
            rcases mgetN_msetN_cases (msetN st.matrix t (Cell.agent id))
                (fc.y.toNat, fc.x.toNat) q Cell.empty with h1 | h1
            · rcases mgetN_msetN_cases st.matrix t q (Cell.agent id) with h2 | h2
              · exact Or.inl (h1.trans h2)
              · exact Or.inr (Or.inr (h1.trans h2))
            · exact Or.inr (Or.inl h1)
          have hmidlen : (msetN (msetN st.matrix t (Cell.agent id))
              (fc.y.toNat, fc.x.toNat) Cell.empty).length = st.matrix.length := by
            rw [length_msetN, length_msetN]
          have hmidrow : ∀ y : Nat, ((msetN (msetN st.matrix t (Cell.agent id))
              (fc.y.toNat, fc.x.toNat) Cell.empty)[y]?.getD []).length
              = (st.matrix[y]?.getD []).length := by
            intro y
            rw [rowlen_msetN, rowlen_msetN]
          cases cell with
          | boundary =>
            try dsimp only at h
            cases h
            exact ⟨fun q => Or.inl rfl, fun j _ => rfl, rfl, Or.inl rfl, rfl, fun y => rfl⟩
          | agent e =>
            try dsimp only at h
            cases h
            exact ⟨fun q => Or.inl rfl, fun j _ => rfl, rfl, Or.inl rfl, rfl, fun y => rfl⟩
          | empty =>
            try dsimp only at h
            cases h
            refine ⟨fun q => ?_, fun j _ => rfl, rfl, Or.inl rfl, hmidlen, hmidrow⟩
            rcases hmid q with h1 | h1 | h1
            · exact Or.inl h1
            · exact Or.inr (Or.inl h1)
            · exact Or.inr (Or.inr (Or.inl h1))
          | food n =>
            try dsimp only at h
            by_cases hrep : cfg.replenish_food = true
            · rw [hrep] at h
              try dsimp only at h
              cases hsor : set_object_randomly
                  (msetN (msetN st.matrix t (Cell.agent id)) (fc.y.toNat, fc.x.toNat)
                    Cell.empty) (Cell.food cfg.food_nutrition) rands with
              | error e => rw [hsor] at h; cases h
              | ok out =>
                obtain ⟨m2, r2x⟩ := out
                rw [hsor] at h
                try dsimp only at h
                cases h
                have hplaced := set_object_randomly_ok hsor
                have hshape := placed_shape hplaced
                refine ⟨fun q => ?_, fun j hj => by simp [hj], rfl,
                  Or.inr ⟨n, rfl⟩, ?_, ?_⟩
                · rcases placed_cases hplaced q with h1 | h1
                  · rw [h1]
                    rcases hmid q with h2 | h2 | h2
                    · exact Or.inl h2
                    · exact Or.inr (Or.inl h2)
                    · exact Or.inr (Or.inr (Or.inl h2))
                  · exact Or.inr (Or.inr (Or.inr h1))
                · exact hshape.1.trans hmidlen
                · intro y
                  exact (hshape.2 y).trans (hmidrow y)
            · rw [Bool.not_eq_true] at hrep
              rw [hrep] at h
              try dsimp only at h
              cases h
              refine ⟨fun q => ?_, fun j hj => by simp [hj], rfl,
                Or.inr ⟨n, rfl⟩, hmidlen, hmidrow⟩
              rcases hmid q with h1 | h1 | h1
              · exact Or.inl h1
              · exact Or.inr (Or.inl h1)
              · exact Or.inr (Or.inr (Or.inl h1))

/-! ### Effects of one scan visit -/

theorem birthPhase_effects {cfg : Config} {beh : Beh} {acc : TickAcc} {y x id : Nat}
    {a1 : TickAcc} (h : birthPhase cfg beh acc y x id = .ok a1) :
    (∀ q, mgetN a1.st.matrix q = mgetN acc.st.matrix q ∨
        mgetN a1.st.matrix q = some (Cell.agent acc.st.nextId)) ∧
    (∀ j, j ≠ id → j ≠ acc.st.nextId → a1.st.health j = acc.st.health j) ∧
    acc.st.nextId ≤ a1.st.nextId ∧
    (a1.cache = acc.cache ∨ a1.cache = acc.cache ++ [acc.st.nextId]) ∧
    (a1.events = acc.events ∨ a1.events = acc.events ++ [Event.birthAsked id]) := by
  unfold birthPhase at h
  by_cases hb : cfg.birth_after = true
  · rw [if_pos hb] at h
    dsimp only at h
    cases hb1 : (beh.giveBirth id (acc.st.health id)).1 with
    | none =>
      rw [hb1] at h
      cases h
      refine ⟨fun q => Or.inl rfl, fun j hj _ => ?_, Nat.le_refl _, Or.inl rfl, Or.inr rfl⟩
      dsimp only
      rw [if_neg hj]
    | some ch =>
      rw [hb1] at h
      cases hson : set_obj_near acc.st.matrix ⟨(x : Int), (y : Int)⟩
          (Cell.agent acc.st.nextId) acc.rands with
      | error e => rw [hson] at h; cases h
      | ok out =>
        obtain ⟨m2, r2⟩ := out
        rw [hson] at h
        dsimp only at h
        cases h
        have hp := set_obj_near_ok hson
        refine ⟨fun q => placed_cases hp q, fun j hj hjn => ?_, Nat.le_succ _,
          Or.inr rfl, Or.inr rfl⟩
        dsimp only
        rw [if_neg hjn, if_neg hj]
  · rw [if_neg hb] at h
    cases h
    exact ⟨fun q => Or.inl rfl, fun j _ _ => rfl, Nat.le_refl _, Or.inl rfl, Or.inl rfl⟩

theorem visitCell_keeps_dead {cfg : Config} {beh : Beh} {acc : TickAcc} {y x : Nat}
    {acc2 : TickAcc} {d : Nat}
    (hd0 : acc.st.health d = 0) (hdn : d < acc.st.nextId)
    (h : visitCell cfg beh acc y x = .ok acc2) :
    acc2.st.health d = 0 ∧ d < acc2.st.nextId ∧
    (∀ ev ∈ acc2.events, ev ∈ acc.events ∨
      (ev ≠ Event.dispatched d ∧ ev ≠ Event.birthAsked d)) ∧
    (∀ p, mgetN acc2.st.matrix p = some (Cell.agent d) →
        mgetN acc.st.matrix p = some (Cell.agent d) ∧ p ≠ (y, x)) := by
  unfold visitCell at h
  cases hc : mgetN acc.st.matrix (y, x) with
  | none =>
    rw [hc] at h
    try dsimp only at h
    cases h
    refine ⟨hd0, hdn, fun ev hev => Or.inl hev, fun p hp => ⟨hp, fun hpe => ?_⟩⟩
    subst hpe
    rw [hc] at hp
    cases hp
  | some cell =>
    cases cell with
    | boundary =>
      rw [hc] at h
      try dsimp only at h
      cases h
      refine ⟨hd0, hdn, fun ev hev => Or.inl hev, fun p hp => ⟨hp, fun hpe => ?_⟩⟩
      subst hpe
      rw [hc] at hp
      cases hp
    | empty =>
      rw [hc] at h
      try dsimp only at h
      cases h
      refine ⟨hd0, hdn, fun ev hev => Or.inl hev, fun p hp => ⟨hp, fun hpe => ?_⟩⟩
      subst hpe
      rw [hc] at hp
      cases hp
    | food n =>
      rw [hc] at h
      try dsimp only at h
      cases h
      refine ⟨hd0, hdn, fun ev hev => Or.inl hev, fun p hp => ⟨hp, fun hpe => ?_⟩⟩
      subst hpe
      rw [hc] at hp
      cases hp
    | agent e =>
      rw [hc] at h
      try dsimp only at h
      by_cases h0 : acc.st.health e = 0
      · rw [if_pos h0] at h
        cases h
        refine ⟨hd0, hdn, ?_, ?_⟩
        · intro ev hev
          rcases List.mem_append.1 hev with hev | hev
          · exact Or.inl hev
          · rcases List.mem_singleton.1 hev with rfl
            exact Or.inr ⟨by simp, by simp⟩
        · intro p hp
          dsimp only at hp
          by_cases hpq : p = (y, x)
          · subst hpq
            rw [mgetN_msetN_self Cell.empty hc] at hp
            cases hp
          · rw [mgetN_msetN_ne _ _ hpq] at hp
            exact ⟨hp, hpq⟩
      · rw [if_neg h0] at h
        have hed : e ≠ d := fun he => h0 (he ▸ hd0)
        by_cases hmem : e ∈ acc.cache
        · rw [if_pos hmem] at h
          cases h
          refine ⟨hd0, hdn, ?_, ?_⟩
          · intro ev hev
            rcases List.mem_append.1 hev with hev | hev
            · exact Or.inl hev
            · rcases List.mem_singleton.1 hev with rfl
              exact Or.inr ⟨by simp, by simp⟩
          · intro p hp
            refine ⟨hp, fun hpe => ?_⟩
            subst hpe
            rw [hc] at hp
            exact hed (Cell.agent.inj (Option.some_inj.1 hp))
        · rw [if_neg hmem] at h
          cases hbp : birthPhase cfg beh acc y x e with
          | error er => rw [hbp] at h; cases h
          | ok a1 =>
            rw [hbp] at h
            try dsimp only at h
            cases hmm : make_move cfg beh a1.st a1.rands
                (beh.getMove e (get_observation a1.st.matrix ⟨(x : Int), (y : Int)⟩)) e with
            | error er => rw [hmm] at h; cases h
            | ok out =>
              obtain ⟨st2, r2, evs⟩ := out
              rw [hmm] at h
              try dsimp only at h
              cases h
              obtain ⟨hbq, hbh, hbn, hbc, hbe⟩ := birthPhase_effects hbp
              obtain ⟨hmq, hmh, hmn, hme, _, _⟩ := make_move_effects hmm
              have hdn1 : d ≠ acc.st.nextId := Nat.ne_of_lt hdn
              refine ⟨?_, ?_, ?_, ?_⟩
              · dsimp only
                rw [hmh d (fun hde => hed hde.symm),
                  hbh d (fun hde => hed hde.symm) hdn1, hd0]
              · dsimp only
                rw [hmn]
                exact Nat.lt_of_lt_of_le hdn hbn
              · intro ev hev
                dsimp only at hev
                rcases List.mem_append.1 hev with hev | hev
                · rcases List.mem_append.1 hev with hev | hev
                  · rcases hbe with hbe | hbe
                    · rw [hbe] at hev
                      exact Or.inl hev
                    · rw [hbe] at hev
                      rcases List.mem_append.1 hev with hev | hev
                      · exact Or.inl hev
                      · rcases List.mem_singleton.1 hev with rfl
                        refine Or.inr ⟨by simp, ?_⟩
                        simp only [ne_eq, Event.birthAsked.injEq]
                        exact hed
                  · rcases List.mem_singleton.1 hev with rfl
                    refine Or.inr ⟨?_, by simp⟩
                    simp only [ne_eq, Event.dispatched.injEq]
                    exact hed
                · rcases hme with hme | ⟨n, hme⟩
                  · rw [hme] at hev
                    cases hev
                  · rw [hme] at hev
                    rcases List.mem_singleton.1 hev with rfl
                    exact Or.inr ⟨by simp, by simp⟩
              · intro p hp
                dsimp only at hp
                rcases hmq p with h1 | h1 | h1 | h1
                · rw [h1] at hp
                  rcases hbq p with h2 | h2
                  · rw [h2] at hp
                    refine ⟨hp, fun hpe => ?_⟩
                    subst hpe
                    rw [hc] at hp
                    exact hed (Cell.agent.inj (Option.some_inj.1 hp))
                  · rw [h2] at hp
                    exact absurd (Cell.agent.inj (Option.some_inj.1 hp)) hdn1.symm
                · rw [h1] at hp
                  cases hp
                · rw [h1] at hp
                  exact absurd (Cell.agent.inj (Option.some_inj.1 hp)) hed
                · rw [h1] at hp
                  cases hp

theorem visitCell_cache_events {cfg : Config} {beh : Beh} {acc : TickAcc} {y x : Nat}
    {acc2 : TickAcc} (h : visitCell cfg beh acc y x = .ok acc2) :
    ∃ Δ, acc2.events = acc.events ++ Δ ∧
      (∀ e0, e0 ∈ acc.cache → e0 ∈ acc2.cache) ∧
      (∀ e0, Δ.count (Event.dispatched e0) ≤ 1 ∧
        (Event.dispatched e0 ∈ Δ → e0 ∉ acc.cache ∧ e0 ∈ acc2.cache)) := by
  unfold visitCell at h
  cases hc : mgetN acc.st.matrix (y, x) with
  | none =>
    rw [hc] at h
    try dsimp only at h
    cases h
    exact ⟨[], by simp, fun e0 he => he, fun e0 => ⟨by simp, by simp⟩⟩
  | some cell =>
    cases cell with
    | boundary =>
      rw [hc] at h
      try dsimp only at h
      cases h
      exact ⟨[], by simp, fun e0 he => he, fun e0 => ⟨by simp, by simp⟩⟩
    | empty =>
      rw [hc] at h
      try dsimp only at h
      cases h
      exact ⟨[], by simp, fun e0 he => he, fun e0 => ⟨by simp, by simp⟩⟩
    | food n =>
      rw [hc] at h
      try dsimp only at h
      cases h
      exact ⟨[], by simp, fun e0 he => he, fun e0 => ⟨by simp, by simp⟩⟩
    | agent e =>
      rw [hc] at h
      try dsimp only at h
      by_cases h0 : acc.st.health e = 0
      · rw [if_pos h0] at h
        cases h
        exact ⟨[Event.erased e], by simp, fun e0 he => he, fun e0 => ⟨by simp, by simp⟩⟩
      · rw [if_neg h0] at h
        by_cases hmem : e ∈ acc.cache
        · rw [if_pos hmem] at h
          cases h
          exact ⟨[Event.skipped e], by simp, fun e0 he => he, fun e0 => ⟨by simp, by simp⟩⟩
        · rw [if_neg hmem] at h
          cases hbp : birthPhase cfg beh acc y x e with
          | error er => rw [hbp] at h; cases h
          | ok a1 =>
            rw [hbp] at h
            try dsimp only at h
            cases hmm : make_move cfg beh a1.st a1.rands
                (beh.getMove e (get_observation a1.st.matrix ⟨(x : Int), (y : Int)⟩)) e with
            | error er => rw [hmm] at h; cases h
            | ok out =>
              obtain ⟨st2, r2, evs⟩ := out
              rw [hmm] at h
              try dsimp only at h
              cases h
              obtain ⟨_, _, _, hbc, hbe⟩ := birthPhase_effects hbp
              obtain ⟨_, _, _, hme, _, _⟩ := make_move_effects hmm
              have hcache : ∀ e0, e0 ∈ acc.cache → e0 ∈ a1.cache ++ [e] := by
                intro e0 he0
                rcases hbc with hbc | hbc
                · rw [hbc]
                  exact List.mem_append.2 (Or.inl he0)
                · rw [hbc]
                  exact List.mem_append.2 (Or.inl (List.mem_append.2 (Or.inl he0)))
              have hself : e ∈ a1.cache ++ [e] :=
                List.mem_append.2 (Or.inr (List.mem_singleton.2 rfl))
              rcases hbe with hbe | hbe <;> rcases hme with hme | ⟨n, hme⟩
              · refine ⟨[Event.dispatched e], by simp [hbe, hme], hcache,
                  fun e0 => ⟨by simp [List.count_cons]; split <;> simp, ?_⟩⟩
                intro hin
                simp only [List.mem_singleton, Event.dispatched.injEq] at hin
                subst hin
                exact ⟨hmem, hself⟩
              · refine ⟨[Event.dispatched e, Event.ate e n], by simp [hbe, hme], hcache,
                  fun e0 => ⟨?_, ?_⟩⟩
                · simp [List.count_cons]
                  split <;> simp
                · intro hin
                  simp only [List.mem_cons, List.mem_singleton, Event.dispatched.injEq,
                    List.not_mem_nil, or_false, reduceCtorEq] at hin
                  subst hin
                  exact ⟨hmem, hself⟩
              · refine ⟨[Event.birthAsked e, Event.dispatched e], by simp [hbe, hme], hcache,
                  fun e0 => ⟨?_, ?_⟩⟩
                · simp [List.count_cons]
                  split <;> simp
                · intro hin
                  simp only [List.mem_cons, List.mem_singleton, Event.dispatched.injEq,
                    List.not_mem_nil, or_false, reduceCtorEq, false_or] at hin
                  subst hin
                  exact ⟨hmem, hself⟩
              · refine ⟨[Event.birthAsked e, Event.dispatched e, Event.ate e n],
                  by simp [hbe, hme], hcache, fun e0 => ⟨?_, ?_⟩⟩
                · simp [List.count_cons]
                  split <;> simp
                · intro hin
                  simp only [List.mem_cons, List.mem_singleton, Event.dispatched.injEq,
                    List.not_mem_nil, or_false, reduceCtorEq, false_or] at hin
                  subst hin
                  exact ⟨hmem, hself⟩

theorem foldlM_visit_inv (cfg : Config) (beh : Beh)
    (P : List (Nat × Nat) → TickAcc → Prop)
    (hstep : ∀ p rest a a2, P (p :: rest) a →
      visitCell cfg beh a p.1 p.2 = .ok a2 → P rest a2) :
    ∀ (l : List (Nat × Nat)) (a0 aF : TickAcc), P l a0 →
      l.foldlM (fun acc p => visitCell cfg beh acc p.1 p.2) a0 = .ok aF →
      P [] aF := by
  intro l
  induction l with
  | nil =>
    intro a0 aF h0 hf
    cases hf
    exact h0
  | cons p rest ih =>
    intro a0 aF h0 hf
    rw [List.foldlM_cons] at hf
    cases hv : visitCell cfg beh a0 p.1 p.2 with
    | error e =>
      rw [hv] at hf
      cases hf
    | ok a1 =>
      rw [hv] at hf
      exact ih a1 aF (hstep p rest a0 a1 h0 hv) hf

/-! ### Positions, the blank matrix and sequential placement -/

theorem mem_positionsOf {m : Grid} {p : Nat × Nat} {c : Cell}
    (h : mgetN m p = some c) : p ∈ positionsOf m := by
  unfold positionsOf
  unfold mgetN at h
  cases hrow : m[p.1]? with
  | none => rw [hrow] at h; cases h
  | some row =>
    rw [hrow] at h
    simp only [Option.bind_eq_bind, Option.some_bind] at h
    rw [List.mem_flatMap]
    refine ⟨p.1, List.mem_range.2 (lt_of_getElem?_some hrow), ?_⟩
    rw [List.mem_map]
    refine ⟨p.2, ?_, rfl⟩
    rw [List.mem_range, hrow]
    exact lt_of_getElem?_some h

theorem isEmptyCell_eq_false {c : Cell} (h : c ≠ Cell.empty) : isEmptyCell c = false := by
  cases c with
  | empty => exact absurd rfl h
  | boundary => rfl
  | food n => rfl
  | agent e => rfl

theorem blank_mgetN (w h i j : Nat) (hi : i < w) (hj : j < h) :
    mgetN (create_blank_matrix w h) (i, j) =
      some (if (i ≠ 0 ∧ i ≠ w - 1) ∧ (j ≠ 0 ∧ j ≠ h - 1) then Cell.empty
        else Cell.boundary) := by
  unfold create_blank_matrix mgetN
  rw [List.getElem?_map, List.getElem?_range hi]
  simp only [Option.map_some', Option.bind_eq_bind, Option.some_bind]
  rw [List.getElem?_map, List.getElem?_range hj]
  rfl

theorem blank_shape (w h : Nat) :
    (create_blank_matrix w h).length = w ∧
      ∀ i : Nat, i < w → ((create_blank_matrix w h)[i]?.getD []).length = h := by
  constructor
  · unfold create_blank_matrix
    rw [List.length_map, List.length_range]
  · intro i hi
    unfold create_blank_matrix
    rw [List.getElem?_map, List.getElem?_range hi]
    simp

theorem blank_oob {w h i j : Nat} {c : Cell}
    (hc : mgetN (create_blank_matrix w h) (i, j) = some c) : i < w ∧ j < h := by
  unfold mgetN at hc
  cases hrow : (create_blank_matrix w h)[i]? with
  | none => rw [hrow] at hc; cases hc
  | some row =>
    rw [hrow] at hc
    simp only [Option.bind_eq_bind, Option.some_bind] at hc
    have h1 : i < w := by
      have := lt_of_getElem?_some hrow
      rwa [(blank_shape w h).1] at this
    refine ⟨h1, ?_⟩
    have h2 := lt_of_getElem?_some hc
    have h3 := (blank_shape w h).2 i h1
    rw [hrow] at h3
    simp only [Option.getD_some] at h3
    omega

theorem countPGrid_blank_zero {q : Cell → Bool} (w h : Nat)
    (hq1 : q Cell.empty = false) (hq2 : q Cell.boundary = false) :
    countPGrid q (create_blank_matrix w h) = 0 := by
  unfold countPGrid create_blank_matrix
  rw [List.map_map, List.sum_eq_zero]
  intro x hx
  rw [List.mem_map] at hx
  obtain ⟨i, _, hxi⟩ := hx
  rw [← hxi]
  simp only [Function.comp]
  rw [List.countP_eq_zero]
  intro a ha
  rw [List.mem_map] at ha
  obtain ⟨j, _, haj⟩ := ha
  rw [← haj]
  by_cases hcond : (i ≠ 0 ∧ i ≠ w - 1) ∧ (j ≠ 0 ∧ j ≠ h - 1)
  · rw [if_pos hcond]
    simp [hq1]
  · rw [if_neg hcond]
    simp [hq2]

theorem place_list_ok {objs : List Cell} :
    ∀ {m : Grid} {rands : List Coordinates} {m2 : Grid} {r2 : List Coordinates},
    (∀ o ∈ objs, o ≠ Cell.empty) →
    place_list m objs rands = .ok (m2, r2) →
    (∀ q : Cell → Bool, q Cell.empty = false →
       countPGrid q m2 = countPGrid q m + objs.countP q) ∧
    countPGrid isEmptyCell m2 + objs.length = countPGrid isEmptyCell m ∧
    (∀ p c, mgetN m p = some c → c ≠ Cell.empty → mgetN m2 p = some c) ∧
    (∀ o ∈ objs, ∃ p, mgetN m2 p = some o) ∧
    m2.length = m.length ∧
    (∀ y : Nat, (m2[y]?.getD []).length = (m[y]?.getD []).length) := by
  induction objs with
  | nil =>
    intro m rands m2 r2 hobjs h
    cases h
    exact ⟨fun q _ => by simp [List.countP_nil], by simp, fun p c hp _ => hp,
      fun o ho => absurd ho (List.not_mem_nil o), rfl, fun y => rfl⟩
  | cons o rest ih =>
    intro m rands m2 r2 hobjs h
    unfold place_list at h
    cases hset : set_object_randomly m o rands with
    | error e => rw [hset] at h; cases h
    | ok out =>
      obtain ⟨mA, rA⟩ := out
      rw [hset] at h
      dsimp only at h
      have hplaced := set_object_randomly_ok hset
      have hrest : ∀ o2 ∈ rest, o2 ≠ Cell.empty := fun o2 ho2 =>
        hobjs o2 (List.mem_cons_of_mem o ho2)
      have honem : o ≠ Cell.empty := hobjs o (List.mem_cons_self o rest)
      obtain ⟨hqc, hec, hkeep, hmem, hlen, hrow⟩ := ih hrest h
      have hshapeA := placed_shape hplaced
      refine ⟨?_, ?_, ?_, ?_, ?_, ?_⟩
      · intro q hq
        have hcnt := placed_count hplaced q
        rw [hq] at hcnt
        simp at hcnt
        rw [hqc q hq, List.countP_cons]
        omega
      · have hcnt := placed_count hplaced isEmptyCell
        rw [isEmptyCell_eq_false honem] at hcnt
        simp [isEmptyCell] at hcnt
        simp only [List.length_cons]
        omega
      · intro p c hp hc
        exact hkeep p c (placed_keep hplaced hp hc) hc
      · intro o2 ho2
        rcases List.mem_cons.1 ho2 with rfl | ho2
        · obtain ⟨p, hp, rfl⟩ := hplaced
          refine ⟨p, hkeep p o2 ?_ honem⟩
          exact mgetN_msetN_self o2 hp
        · exact hmem o2 ho2
      · rw [hlen, hshapeA.1]
      · intro y
        rw [hrow y, hshapeA.2 y]

/-! ### Concrete scenarios -/

/-- Configuration of the spec's 5 by 5 example scenario: no birth, no
replenishment, nutrition 3, no initial food. -/
def cfgR : Config := ⟨5, 5, false, 3, 0, false⟩

/-- Behaviour fixing the movement policy to `Right`; eating keeps the
current health, reproduction never produces offspring. -/
def behR : Beh := ⟨fun _ _ => Movement.right, fun _ hp _ => hp, fun _ hp => (none, hp)⟩

/-- The 5 by 5 blank matrix with a single agent of identity 0 at the
coordinates x = 1, y = 1. -/
def m5 : Grid := msetN (create_blank_matrix 5 5) (1, 1) (Cell.agent 0)

/-- World state of the example scenario: the agent has health 10, the
next fresh identity is 1. -/
def stR : St := ⟨m5, fun _ => 10, 1⟩

/-- The matrix after the example tick: the agent moved from (1, 1) to
(2, 1). -/
def m5after : Grid := msetN (msetN m5 (1, 2) (Cell.agent 0)) (1, 1) Cell.empty

/-- Modelled from the spec: the clipping observation extractor of section
4.4 — the window spans one cell of margin around the origin; rows and
columns outside the grid's bounds are dropped (clipped), never wrapped to
the opposite side. -/
def extract_clipped (m : Grid) (c : Coordinates) : Grid :=
  (List.range m.length).filterMap fun (y : Nat) =>
    if c.y - 1 ≤ (y : Int) ∧ (y : Int) ≤ c.y + 1 then
      (m[y]?).map fun row =>
        (List.range row.length).filterMap fun (x : Nat) =>
          if c.x - 1 ≤ (x : Int) ∧ (x : Int) ≤ c.x + 1 then row[x]? else none
    else none

/-! ### Claim theorems -/

/-- C1: the claim asserts that for every width ≥ 3, height ≥ 3 the cells
of row 0, row (height - 1), column 0 and column (width - 1) of the
matrix, addressed as `matrix[y][x]`, hold the `Boundary` marker.  The
code violates this for non-square configurations: `_create_blank_matrix`
builds a matrix of `width` rows by `height` columns while every accessor
addresses `matrix[y][x]`.  At width 4, height 3 the matrix has 4 rows of
3 cells; the cell `matrix[2][1]` lies in row height - 1 = 2, which the
claim requires to be `Boundary`, yet it is vacant, and column
width - 1 = 3 does not even exist (subscripting it is an `IndexError`). -/
theorem c1_transposed_blank_matrix :
    mgetN (create_blank_matrix 4 3) (2, 1) = some Cell.empty ∧
    (create_blank_matrix 4 3).length = 4 ∧
    ((create_blank_matrix 4 3)[0]?.getD []).length = 3 ∧
    mgetN (create_blank_matrix 4 3) (1, 3) = none := by
  decide

/-- C8 counterexample: creating the environment with width = height = 2
does not fail — no `ConfigurationError` exists anywhere in
`environment.py` and `__init__` performs no dimension validation — the
construction succeeds and returns the 2 by 2 matrix with every cell
`Boundary`. -/
theorem c8_no_dimension_validation :
    create_blank_matrix 2 2 =
      [[Cell.boundary, Cell.boundary], [Cell.boundary, Cell.boundary]] := by
  decide

/-- C8 amended: creation never fails; for width < 3 or height < 3 every
cell of the produced matrix is `Boundary` (there is no interior), and for
width ≥ 3, height ≥ 3 the matrix has `width` rows of `height` cells whose
outermost ring is `Boundary` and whose interior is `Empty`. -/
theorem c8_amended_create_blank_matrix :
    (∀ w h i j : Nat, ∀ c : Cell, (w < 3 ∨ h < 3) →
      mgetN (create_blank_matrix w h) (i, j) = some c → c = Cell.boundary) ∧
    (∀ w h i j : Nat, ∀ c : Cell, 3 ≤ w → 3 ≤ h →
      mgetN (create_blank_matrix w h) (i, j) = some c →
      c = (if (1 ≤ i ∧ i ≤ w - 2) ∧ (1 ≤ j ∧ j ≤ h - 2) then Cell.empty
        else Cell.boundary)) ∧
    (∀ w h : Nat, (create_blank_matrix w h).length = w ∧
      ∀ i : Nat, i < w → ((create_blank_matrix w h)[i]?.getD []).length = h) := by
  refine ⟨?_, ?_, fun w h => blank_shape w h⟩
  · intro w h i j c hwh hc
    obtain ⟨hi, hj⟩ := blank_oob hc
    rw [blank_mgetN w h i j hi hj] at hc
    have hneg : ¬((i ≠ 0 ∧ i ≠ w - 1) ∧ (j ≠ 0 ∧ j ≠ h - 1)) := by
      rcases hwh with hw | hh
      · rintro ⟨⟨hi0, hiw⟩, -⟩
        omega
      · rintro ⟨-, ⟨hj0, hjh⟩⟩
        omega
    rw [if_neg hneg] at hc
    exact (Option.some_inj.1 hc).symm
  · intro w h i j c hw hh hc
    obtain ⟨hi, hj⟩ := blank_oob hc
    rw [blank_mgetN w h i j hi hj] at hc
    have hiff : ((i ≠ 0 ∧ i ≠ w - 1) ∧ (j ≠ 0 ∧ j ≠ h - 1)) ↔
        ((1 ≤ i ∧ i ≤ w - 2) ∧ (1 ≤ j ∧ j ≤ h - 2)) := by omega
    rw [← Option.some_inj.1 hc]
    by_cases hA : (i ≠ 0 ∧ i ≠ w - 1) ∧ (j ≠ 0 ∧ j ≠ h - 1)
    · rw [if_pos hA, if_pos (hiff.1 hA)]
    · rw [if_neg hA, if_neg (fun hB => hA (hiff.2 hB))]

/-- C9: at the in-bounds origin (0, 0) of the 5 by 5 blank matrix,
`_get_observation` returns the empty list — the slice `matrix[-1:2]` has
its start index wrapped to the far edge (index 4), so it selects nothing —
whereas the clipped window the claim describes is the 2 by 2 corner
sub-grid (three ring cells and the interior corner). -/
theorem c9_observation_not_clipped :
    get_observation (create_blank_matrix 5 5) ⟨0, 0⟩ = [] ∧
    extract_clipped (create_blank_matrix 5 5) ⟨0, 0⟩ =
      [[Cell.boundary, Cell.boundary], [Cell.boundary, Cell.empty]] ∧
    get_observation (create_blank_matrix 5 5) ⟨0, 0⟩ ≠
      extract_clipped (create_blank_matrix 5 5) ⟨0, 0⟩ := by
  have h1 : get_observation (create_blank_matrix 5 5) ⟨0, 0⟩ = [] := rfl
  have h2 : extract_clipped (create_blank_matrix 5 5) ⟨0, 0⟩ =
      [[Cell.boundary, Cell.boundary], [Cell.boundary, Cell.empty]] := rfl
  refine ⟨h1, h2, ?_⟩
  rw [h1, h2]
  decide

/-- C2 counterexample: in the spec's own example configuration (one agent
at (1, 1) on the 5 by 5 grid, policy fixed to `Right`) the agent moves to
cell (2, 1), later in scan order; the scan does visit it again (the
`skipped` event) but the `moved_entity_cash` membership test absorbs the
revisit, so the agent is dispatched exactly once and ends the tick at
(2, 1) — not at (3, 1), where a second move would have put it. -/
theorem c2_no_second_move_at_example :
    (get_next_state cfgR behR stR []).map (fun a => (a.st.matrix, a.events)) =
      .ok (m5after, [Event.dispatched 0, Event.skipped 0]) ∧
    [Event.dispatched 0, Event.skipped 0].count (Event.dispatched 0) = 1 ∧
    mgetN m5after (1, 2) = some (Cell.agent 0) ∧
    mgetN m5after (1, 3) = some Cell.empty := by
  refine ⟨rfl, by decide, by decide, by decide⟩

/-- C4: a directional move whose target cell holds the boundary marker or
an agent raises no error and leaves the whole state unchanged — the exact
result `_make_move` produces for `STAY`. -/
theorem c4_blocked_move_absorbed (cfg : Config) (beh : Beh) (st : St)
    (rands : List Coordinates) (mv : Movement) (id : Nat) (fc : Coordinates)
    (t : Nat × Nat)
    (hfrom : get_object_coordinates st.matrix id = some fc)
    (hmv : mv ≠ Movement.stay)
    (ht : normPos st.matrix (targetOf fc mv) = some t)
    (hcell : mgetN st.matrix t = some Cell.boundary ∨
      ∃ e, mgetN st.matrix t = some (Cell.agent e)) :
    make_move cfg beh st rands mv id = .ok (st, rands, []) ∧
    make_move cfg beh st rands mv id = make_move cfg beh st rands Movement.stay id := by
  have h1 := @make_move_blocked cfg beh st rands mv id fc t hfrom hmv ht hcell
  exact ⟨h1, h1.trans (make_move_stay cfg beh st rands id fc hfrom).symm⟩

/-- Witness for C4: on the example grid the agent at (1, 1) ordered `UP`
targets the boundary cell (1, 0); the move is silently absorbed. -/
theorem c4_blocked_move_absorbed_witness :
    make_move cfgR behR stR [] Movement.up 0 = .ok (stR, [], []) ∧
    make_move cfgR behR stR [] Movement.up 0 = make_move cfgR behR stR [] Movement.stay 0 :=
  c4_blocked_move_absorbed cfgR behR stR [] Movement.up 0 ⟨1, 1⟩ (0, 1) rfl
    (by decide) rfl (Or.inl rfl)

/-- C5: a directional move into a vacant cell puts the agent in the
target cell, clears the origin and changes nothing else; in particular,
on the 5 by 5 grid with one agent at (1, 1) and the policy fixed to
`Right`, one tick moves the agent to (2, 1) and leaves (1, 1) vacant. -/
theorem c5_move_into_empty :
    (∀ (cfg : Config) (beh : Beh) (st : St) (rands : List Coordinates) (mv : Movement)
        (id : Nat) (fc : Coordinates) (t : Nat × Nat),
      get_object_coordinates st.matrix id = some fc →
      mv ≠ Movement.stay →
      normPos st.matrix (targetOf fc mv) = some t →
      mgetN st.matrix t = some Cell.empty →
      t ≠ (fc.y.toNat, fc.x.toNat) →
      ∃ st2, make_move cfg beh st rands mv id = .ok (st2, rands, []) ∧
        mgetN st2.matrix t = some (Cell.agent id) ∧
        mgetN st2.matrix (fc.y.toNat, fc.x.toNat) = some Cell.empty ∧
        st2.health = st.health ∧ st2.nextId = st.nextId ∧
        ∀ q, q ≠ t → q ≠ (fc.y.toNat, fc.x.toNat) →
          mgetN st2.matrix q = mgetN st.matrix q) ∧
    ((get_next_state cfgR behR stR []).map (fun a => (a.st.matrix, a.cache)) =
        .ok (m5after, [0]) ∧
      mgetN m5 (1, 2) = some Cell.empty ∧
      mgetN m5after (1, 2) = some (Cell.agent 0) ∧
      mgetN m5after (1, 1) = some Cell.empty) := by
  constructor
  · intro cfg beh st rands mv id fc t hfrom hmv ht hcell hne
    refine ⟨_, make_move_into_empty hfrom hmv ht hcell, ?_, ?_, rfl, rfl, ?_⟩
    · dsimp only
      rw [mgetN_msetN_ne _ _ hne]
      exact mgetN_msetN_self (Cell.agent id) hcell
    · dsimp only
      have hfc := (goc_spec hfrom).2.2
      have hmid : mgetN (msetN st.matrix t (Cell.agent id)) (fc.y.toNat, fc.x.toNat)
          = some (Cell.agent id) := by
        rw [mgetN_msetN_ne _ _ (fun he => hne he.symm)]
        exact hfc
      exact mgetN_msetN_self Cell.empty hmid
    · intro q hqt hqf
      dsimp only
      rw [mgetN_msetN_ne _ _ hqf, mgetN_msetN_ne _ _ hqt]
  · exact ⟨rfl, by decide, by decide, by decide⟩

/-- Inversion of the replenishing food branch of `_make_move`: a
successful move into food under `replenish_food` passed through a
successful random placement of the fresh food. -/
theorem make_move_food_replenish_inv {cfg : Config} {beh : Beh} {st : St}
    {rands : List Coordinates} {mv : Movement} {id n : Nat} {fc : Coordinates}
    {t : Nat × Nat} {st2 : St} {r2 : List Coordinates} {evs : List Event}
    (hfrom : get_object_coordinates st.matrix id = some fc)
    (hmv : mv ≠ Movement.stay)
    (ht : normPos st.matrix (targetOf fc mv) = some t)
    (hcell : mgetN st.matrix t = some (Cell.food n))
    (hrep : cfg.replenish_food = true)
    (hrun : make_move cfg beh st rands mv id = .ok (st2, r2, evs)) :
    ∃ m2, set_object_randomly
        (msetN (msetN st.matrix t (Cell.agent id)) (fc.y.toNat, fc.x.toNat) Cell.empty)
        (Cell.food cfg.food_nutrition) rands = .ok (m2, r2) ∧
      st2 = { matrix := m2,
              health := fun j => if j = id then beh.eatFn id (st.health id) n
                else st.health j,
              nextId := st.nextId } ∧
      evs = [Event.ate id n] := by
  unfold make_move at hrun
  rw [hfrom] at hrun
  dsimp only at hrun
  rw [if_neg hmv, ht] at hrun
  dsimp only at hrun
  rw [hcell] at hrun
  dsimp only at hrun
  rw [if_pos hrep] at hrun
  cases hsor : set_object_randomly
      (msetN (msetN st.matrix t (Cell.agent id)) (fc.y.toNat, fc.x.toNat) Cell.empty)
      (Cell.food cfg.food_nutrition) rands with
  | error e => rw [hsor] at hrun; cases hrun
  | ok out =>
    obtain ⟨m2, r2x⟩ := out
    rw [hsor] at hrun
    dsimp only at hrun
    simp only [Except.ok.injEq, Prod.mk.injEq] at hrun
    obtain ⟨hst, hr, hev⟩ := hrun
    exact ⟨m2, by rw [hr], hst.symm, hev.symm⟩

/-- C3: a directional move into a `Food(n)` cell invokes `eat` with that
food (the `ate` event and the eater's health update), puts the agent in
the target cell and clears the origin; without replenishment the food
total drops by exactly one; with replenishment a fresh food of the
configured nutrition is placed at a cell that was vacant right after the
move (possibly the just-cleared origin), keeping the food total
unchanged. -/
theorem c3_move_into_food (cfg : Config) (beh : Beh) (st : St)
    (rands : List Coordinates) (mv : Movement) (id n : Nat) (fc : Coordinates)
    (t : Nat × Nat) (st2 : St) (r2 : List Coordinates) (evs : List Event)
    (hfrom : get_object_coordinates st.matrix id = some fc)
    (hmv : mv ≠ Movement.stay)
    (ht : normPos st.matrix (targetOf fc mv) = some t)
    (hcell : mgetN st.matrix t = some (Cell.food n))
    (hne : t ≠ (fc.y.toNat, fc.x.toNat))
    (hrun : make_move cfg beh st rands mv id = .ok (st2, r2, evs)) :
    evs = [Event.ate id n] ∧
    st2.health id = beh.eatFn id (st.health id) n ∧
    mgetN st2.matrix t = some (Cell.agent id) ∧
    (cfg.replenish_food = false →
      st2.matrix = msetN (msetN st.matrix t (Cell.agent id))
        (fc.y.toNat, fc.x.toNat) Cell.empty ∧
      mgetN st2.matrix (fc.y.toNat, fc.x.toNat) = some Cell.empty ∧
      countPGrid isFoodCell st2.matrix + 1 = countPGrid isFoodCell st.matrix) ∧
    (cfg.replenish_food = true →
      countPGrid isFoodCell st2.matrix = countPGrid isFoodCell st.matrix ∧
      ∃ p, mgetN (msetN (msetN st.matrix t (Cell.agent id))
          (fc.y.toNat, fc.x.toNat) Cell.empty) p = some Cell.empty ∧
        st2.matrix = msetN (msetN (msetN st.matrix t (Cell.agent id))
          (fc.y.toNat, fc.x.toNat) Cell.empty) p (Cell.food cfg.food_nutrition)) := by
  have hfc := (goc_spec hfrom).2.2
  have hmid1 : mgetN (msetN st.matrix t (Cell.agent id)) (fc.y.toNat, fc.x.toNat)
      = some (Cell.agent id) := by
    rw [mgetN_msetN_ne _ _ (fun he => hne he.symm)]
    exact hfc
  have hmidt : mgetN (msetN (msetN st.matrix t (Cell.agent id))
      (fc.y.toNat, fc.x.toNat) Cell.empty) t = some (Cell.agent id) := by
    rw [mgetN_msetN_ne _ _ hne]
    exact mgetN_msetN_self (Cell.agent id) hcell
  have hcnt1 := @countPGrid_msetN isFoodCell st.matrix t _ (Cell.agent id) hcell
  have hcnt2 := @countPGrid_msetN isFoodCell (msetN st.matrix t (Cell.agent id))
    (fc.y.toNat, fc.x.toNat) _ Cell.empty hmid1
  simp [isFoodCell] at hcnt1 hcnt2
  by_cases hrep : cfg.replenish_food = true
  · obtain ⟨m2, hsor, hst2, hevs⟩ := make_move_food_replenish_inv hfrom hmv ht hcell hrep hrun
    have hplaced := set_object_randomly_ok hsor
    obtain ⟨p, hp, hm2⟩ := hplaced
    have hcnt3 := @countPGrid_msetN isFoodCell
      (msetN (msetN st.matrix t (Cell.agent id)) (fc.y.toNat, fc.x.toNat) Cell.empty)
      p _ (Cell.food cfg.food_nutrition) hp
    simp [isFoodCell] at hcnt3
    subst hst2
    refine ⟨hevs, by simp, ?_, ?_, fun _ => ⟨?_, p, hp, hm2⟩⟩
    · dsimp only
      rw [hm2]
      exact placed_keep ⟨p, hp, rfl⟩ hmidt (by simp)
    · intro hfalse
      rw [hrep] at hfalse
      cases hfalse
    · dsimp only
      rw [hm2]
      omega
  · rw [Bool.not_eq_true] at hrep
    have heq := (make_move_into_food_no_replenish hfrom hmv ht hcell hrep).symm.trans hrun
    simp only [Except.ok.injEq, Prod.mk.injEq] at heq
    obtain ⟨hst, hr, hev⟩ := heq
    subst hst
    refine ⟨hev.symm, by simp, hmidt, fun _ => ⟨rfl, ?_, ?_⟩, ?_⟩
    · exact mgetN_msetN_self Cell.empty hmid1
    · dsimp only
      omega
    · intro htrue
      rw [hrep] at htrue
      cases htrue

/-- Configuration of the feeding scenario: replenishment on, nutrition 3. -/
def cfgF : Config := ⟨5, 5, true, 3, 0, false⟩

/-- The example matrix with an extra `Food(7)` at x = 2, y = 1, directly
right of the agent. -/
def mF : Grid := msetN m5 (1, 2) (Cell.food 7)

/-- World state of the feeding scenario. -/
def stF : St := ⟨mF, fun _ => 10, 1⟩

/-- Witness for C3: the agent at (1, 1) moves `Right` into the food at
(2, 1); the replenishment supply offers the vacant cell (3, 3). -/
theorem c3_move_into_food_witness :
    ∃ st2 r2 evs, make_move cfgF behR stF [⟨3, 3⟩] Movement.right 0 = .ok (st2, r2, evs) ∧
      evs = [Event.ate 0 7] ∧
      mgetN st2.matrix (1, 2) = some (Cell.agent 0) ∧
      countPGrid isFoodCell st2.matrix = countPGrid isFoodCell stF.matrix := by
  refine ⟨_, _, _, rfl, ?_, ?_, ?_⟩
  · exact (c3_move_into_food cfgF behR stF [⟨3, 3⟩] Movement.right 0 7 ⟨1, 1⟩ (1, 2)
      _ _ _ rfl (by decide) rfl rfl (by decide) rfl).1
  · exact (c3_move_into_food cfgF behR stF [⟨3, 3⟩] Movement.right 0 7 ⟨1, 1⟩ (1, 2)
      _ _ _ rfl (by decide) rfl rfl (by decide) rfl).2.2.1
  · exact ((c3_move_into_food cfgF behR stF [⟨3, 3⟩] Movement.right 0 7 ⟨1, 1⟩ (1, 2)
      _ _ _ rfl (by decide) rfl rfl (by decide) rfl).2.2.2.2 rfl).1

/-- C2 amended: the scan does revisit an agent that moved to a cell later
in scan order, but the `moved_entity_cash` membership test absorbs the
revisit, so no agent is ever dispatched (asked for a move and moved)
twice in one tick; an agent moved to an earlier cell is simply never
reached again.  The second conjunct shows the revisit-then-skip on the
spec's example scenario. -/
theorem c2_amended_no_double_dispatch :
    (∀ (cfg : Config) (beh : Beh) (st : St) (rands : List Coordinates) (acc : TickAcc),
      get_next_state cfg beh st rands = .ok acc →
      ∀ e, acc.events.count (Event.dispatched e) ≤ 1) ∧
    (get_next_state cfgR behR stR []).map (fun a => a.events) =
      .ok [Event.dispatched 0, Event.skipped 0] := by
  constructor
  · intro cfg beh st rands acc hrun e
    have hstep : ∀ (p : Nat × Nat) (rest : List (Nat × Nat)) (a a2 : TickAcc),
        (fun (_ : List (Nat × Nat)) (a : TickAcc) => ∀ e0 : Nat,
          a.events.count (Event.dispatched e0) ≤ 1 ∧
          (Event.dispatched e0 ∈ a.events → e0 ∈ a.cache)) (p :: rest) a →
        visitCell cfg beh a p.1 p.2 = .ok a2 →
        (fun (_ : List (Nat × Nat)) (a : TickAcc) => ∀ e0 : Nat,
          a.events.count (Event.dispatched e0) ≤ 1 ∧
          (Event.dispatched e0 ∈ a.events → e0 ∈ a.cache)) rest a2 := by
      intro p rest a a2 hPa hv e0
      obtain ⟨Δ, hev, hcmono, hΔ⟩ := visitCell_cache_events hv
      obtain ⟨hc1, hc2⟩ := hΔ e0
      constructor
      · rw [hev, List.count_append]
        by_cases hmemΔ : Event.dispatched e0 ∈ Δ
        · have hnot : Event.dispatched e0 ∉ a.events :=
            fun hmem => (hc2 hmemΔ).1 ((hPa e0).2 hmem)
          rw [List.count_eq_zero.2 hnot]
          simpa using hc1
        · rw [List.count_eq_zero.2 hmemΔ]
          have := (hPa e0).1
          omega
      · intro hmem
        rw [hev] at hmem
        rcases List.mem_append.1 hmem with hmem | hmem
        · exact hcmono e0 ((hPa e0).2 hmem)
        · exact (hc2 hmem).2
    have hfin := foldlM_visit_inv cfg beh
      (fun (_ : List (Nat × Nat)) (a : TickAcc) => ∀ e0 : Nat,
        a.events.count (Event.dispatched e0) ≤ 1 ∧
        (Event.dispatched e0 ∈ a.events → e0 ∈ a.cache))
      hstep (positionsOf st.matrix) ⟨st, [], rands, []⟩ acc
      (fun e0 => ⟨by simp, by simp⟩) hrun
    exact (hfin e).1
  · rfl

/-- C6: an agent whose health is zero at the start of a tick is erased at
its scan visit, occupies no cell once the sweep completes, and is never
asked for a movement decision nor for reproduction during that tick. -/
theorem c6_dead_agent_removed (cfg : Config) (beh : Beh) (st : St)
    (rands : List Coordinates) (acc : TickAcc) (d : Nat)
    (hd0 : st.health d = 0) (hdn : d < st.nextId)
    (hrun : get_next_state cfg beh st rands = .ok acc) :
    (∀ p, mgetN acc.st.matrix p ≠ some (Cell.agent d)) ∧
    Event.dispatched d ∉ acc.events ∧ Event.birthAsked d ∉ acc.events := by
  have hstep : ∀ (p : Nat × Nat) (rest : List (Nat × Nat)) (a a2 : TickAcc),
      (fun (l : List (Nat × Nat)) (a : TickAcc) =>
        a.st.health d = 0 ∧ d < a.st.nextId ∧
        (∀ ev ∈ a.events, ev ≠ Event.dispatched d ∧ ev ≠ Event.birthAsked d) ∧
        (∀ q, mgetN a.st.matrix q = some (Cell.agent d) → q ∈ l)) (p :: rest) a →
      visitCell cfg beh a p.1 p.2 = .ok a2 →
      (fun (l : List (Nat × Nat)) (a : TickAcc) =>
        a.st.health d = 0 ∧ d < a.st.nextId ∧
        (∀ ev ∈ a.events, ev ≠ Event.dispatched d ∧ ev ≠ Event.birthAsked d) ∧
        (∀ q, mgetN a.st.matrix q = some (Cell.agent d) → q ∈ l)) rest a2 := by
    intro p rest a a2 hPa hv
    obtain ⟨ha0, han, haev, hacell⟩ := hPa
    obtain ⟨h20, h2n, h2ev, h2cell⟩ := visitCell_keeps_dead ha0 han hv
    refine ⟨h20, h2n, ?_, ?_⟩
    · intro ev hev
      rcases h2ev ev hev with hold | hnew
      · exact haev ev hold
      · exact hnew
    · intro q hq
      obtain ⟨hqold, hqne⟩ := h2cell q hq
      have hmem := hacell q hqold
      rcases List.mem_cons.1 hmem with rfl | hmem
      · exact absurd rfl hqne
      · exact hmem
  have hfin := foldlM_visit_inv cfg beh
    (fun (l : List (Nat × Nat)) (a : TickAcc) =>
      a.st.health d = 0 ∧ d < a.st.nextId ∧
      (∀ ev ∈ a.events, ev ≠ Event.dispatched d ∧ ev ≠ Event.birthAsked d) ∧
      (∀ q, mgetN a.st.matrix q = some (Cell.agent d) → q ∈ l))
    hstep (positionsOf st.matrix) ⟨st, [], rands, []⟩ acc
    ⟨hd0, hdn, fun ev hev => absurd hev (List.not_mem_nil ev),
      fun q hq => mem_positionsOf hq⟩ hrun
  obtain ⟨-, -, hev, hcell⟩ := hfin
  refine ⟨fun p hp => absurd (hcell p hp) (List.not_mem_nil p), ?_, ?_⟩
  · intro hmem
    exact (hev (Event.dispatched d) hmem).1 rfl
  · intro hmem
    exact (hev (Event.birthAsked d) hmem).2 rfl

/-- Configuration of the dead-agent scenario: a 3 by 3 grid. -/
def cfgD : Config := ⟨3, 3, false, 3, 0, false⟩

/-- The 3 by 3 blank matrix with a single dead agent at (1, 1). -/
def mD : Grid := msetN (create_blank_matrix 3 3) (1, 1) (Cell.agent 0)

/-- World state of the dead-agent scenario: the agent's health is 0. -/
def stD : St := ⟨mD, fun _ => 0, 1⟩

/-- Witness for C6: the dead agent at (1, 1) of a 3 by 3 grid is erased
by the tick and never dispatched nor asked for birth. -/
theorem c6_dead_agent_removed_witness :
    ∃ acc, get_next_state cfgD behR stD [] = .ok acc ∧
      (∀ p, mgetN acc.st.matrix p ≠ some (Cell.agent 0)) ∧
      Event.dispatched 0 ∉ acc.events ∧ Event.birthAsked 0 ∉ acc.events :=
  ⟨_, rfl, c6_dead_agent_removed cfgD behR stD [] _ 0 rfl (by decide) rfl⟩

theorem mgetN_isSome_of_shape {m m2 : Grid}
    (hlen : m2.length = m.length)
    (hrow : ∀ y : Nat, (m2[y]?.getD []).length = (m[y]?.getD []).length)
    {p : Nat × Nat} {c : Cell} (h : mgetN m2 p = some c) :
    ∃ c2, mgetN m p = some c2 := by
  unfold mgetN at *
  cases hrow2 : m2[p.1]? with
  | none => rw [hrow2] at h; cases h
  | some row2 =>
    rw [hrow2] at h
    simp only [Option.bind_eq_bind, Option.some_bind] at h
    have hp1 : p.1 < m.length := by
      rw [← hlen]
      exact lt_of_getElem?_some hrow2
    cases hrowm : m[p.1]? with
    | none => exact absurd (List.getElem?_eq_none_iff.1 hrowm) (Nat.not_le.2 hp1)
    | some rowm =>
      have hl := hrow p.1
      rw [hrow2, hrowm] at hl
      simp only [Option.getD_some] at hl
      have hp2 : p.2 < rowm.length := by
        rw [← hl]
        exact lt_of_getElem?_some h
      cases hcell : rowm[p.2]? with
      | none => exact absurd (List.getElem?_eq_none_iff.1 hcell) (Nat.not_le.2 hp2)
      | some c2 =>
        refine ⟨c2, ?_⟩
        simpa using hcell

/-- C7: `setup_initial_state` called with no registered herbivores fails
with `SetupEnvironmentError`; a successful call places exactly the N
registered agents and exactly M food units, each into a distinct
previously vacant cell of the freshly rebuilt blank matrix (non-vacant
blank cells are untouched); a call for which the blank matrix lacks
vacancies for all N + M placements can never succeed, and on the 3 by 3
grid (one vacant interior cell) registering two herbivores fails with
`SetupEnvironmentError`. -/
theorem c7_setup_initial_state :
    (∀ (cfg : Config) (rands : List Coordinates),
      setup_initial_state cfg [] rands = .error .setupError) ∧
    (∀ (cfg : Config) (herbs : List Nat) (rands : List Coordinates) (m2 : Grid)
        (r2 : List Coordinates),
      setup_initial_state cfg herbs rands = .ok (m2, r2) →
      countPGrid isAgentCell m2 = herbs.length ∧
      countPGrid isFoodCell m2 = cfg.herbivore_food_amount ∧
      countPGrid isEmptyCell m2 + herbs.length + cfg.herbivore_food_amount
        = countPGrid isEmptyCell (create_blank_matrix cfg.width cfg.height) ∧
      (∀ a ∈ herbs, ∃ p, mgetN m2 p = some (Cell.agent a)) ∧
      (∀ p c, mgetN (create_blank_matrix cfg.width cfg.height) p = some c →
        c ≠ Cell.empty → mgetN m2 p = some c) ∧
      (∀ p e, mgetN m2 p = some (Cell.agent e) →
        mgetN (create_blank_matrix cfg.width cfg.height) p = some Cell.empty) ∧
      (∀ p n, mgetN m2 p = some (Cell.food n) →
        mgetN (create_blank_matrix cfg.width cfg.height) p = some Cell.empty)) ∧
    (∀ (cfg : Config) (herbs : List Nat) (rands : List Coordinates),
      countPGrid isEmptyCell (create_blank_matrix cfg.width cfg.height)
          < herbs.length + cfg.herbivore_food_amount →
      ∀ m2 r2, setup_initial_state cfg herbs rands ≠ .ok (m2, r2)) ∧
    setup_initial_state ⟨3, 3, false, 2, 0, false⟩ [0, 1] [⟨1, 1⟩] =
      .error .setupError := by
  have hagents_ne : ∀ (herbs : List Nat), ∀ o ∈ herbs.map Cell.agent, o ≠ Cell.empty := by
    intro herbs o ho
    obtain ⟨a, -, rfl⟩ := List.mem_map.1 ho
    intro hx
    cases hx
  have hfood_ne : ∀ (k nutr : Nat), ∀ o ∈ List.replicate k (Cell.food nutr),
      o ≠ Cell.empty := by
    intro k nutr o ho
    rw [(List.mem_replicate.1 ho).2]
    intro hx
    cases hx
  refine ⟨fun cfg rands => rfl, ?_, ?_, rfl⟩
  · intro cfg herbs rands m2 r2 h
    unfold setup_initial_state at h
    dsimp only at h
    by_cases hlen : herbs.length < 1
    · rw [if_pos hlen] at h
      cases h
    · rw [if_neg hlen] at h
      cases hpl1 : place_list (create_blank_matrix cfg.width cfg.height)
          (herbs.map Cell.agent) rands with
      | error e => rw [hpl1] at h; cases h
      | ok outA =>
        obtain ⟨mA, rA⟩ := outA
        rw [hpl1] at h
        dsimp only at h
        obtain ⟨hq1, he1, hk1, hm1, hl1, hr1⟩ := place_list_ok (hagents_ne herbs) hpl1
        obtain ⟨hq2, he2, hk2, hm2, hl2, hr2⟩ :=
          place_list_ok (hfood_ne cfg.herbivore_food_amount cfg.food_nutrition) h
        have hblank_ag : countPGrid isAgentCell
            (create_blank_matrix cfg.width cfg.height) = 0 :=
          countPGrid_blank_zero cfg.width cfg.height rfl rfl
        have hblank_fd : countPGrid isFoodCell
            (create_blank_matrix cfg.width cfg.height) = 0 :=
          countPGrid_blank_zero cfg.width cfg.height rfl rfl
        have hmap_ag : (herbs.map Cell.agent).countP isAgentCell = herbs.length := by
          have hall : ∀ o ∈ herbs.map Cell.agent, isAgentCell o = true := by
            intro o ho
            obtain ⟨a, -, rfl⟩ := List.mem_map.1 ho
            rfl
          rw [List.countP_eq_length.2 hall, List.length_map]
        have hmap_fd : (herbs.map Cell.agent).countP isFoodCell = 0 := by
          rw [List.countP_eq_zero]
          intro o ho
          obtain ⟨a, -, rfl⟩ := List.mem_map.1 ho
          simp [isFoodCell]
        have hrep_fd : (List.replicate cfg.herbivore_food_amount
            (Cell.food cfg.food_nutrition)).countP isFoodCell
            = cfg.herbivore_food_amount := by
          have hall : ∀ o ∈ List.replicate cfg.herbivore_food_amount
              (Cell.food cfg.food_nutrition), isFoodCell o = true := by
            intro o ho
            rw [(List.mem_replicate.1 ho).2]
            rfl
          rw [List.countP_eq_length.2 hall, List.length_replicate]
        have hrep_ag : (List.replicate cfg.herbivore_food_amount
            (Cell.food cfg.food_nutrition)).countP isAgentCell = 0 := by
          rw [List.countP_eq_zero]
          intro o ho
          rw [(List.mem_replicate.1 ho).2]
          simp [isAgentCell]
        have hblankcell : ∀ (p : Nat × Nat) (c2 : Cell),
            mgetN (create_blank_matrix cfg.width cfg.height) p = some c2 →
            c2 = Cell.empty ∨ c2 = Cell.boundary := by
          intro p c2 hc
          obtain ⟨hi, hj⟩ := blank_oob hc
          rw [blank_mgetN _ _ _ _ hi hj] at hc
          have hc2 := (Option.some_inj.1 hc).symm
          by_cases hcond : (p.1 ≠ 0 ∧ p.1 ≠ cfg.width - 1) ∧
              (p.2 ≠ 0 ∧ p.2 ≠ cfg.height - 1)
          · rw [if_pos hcond] at hc2
            exact Or.inl hc2
          · rw [if_neg hcond] at hc2
            exact Or.inr hc2
        have hkeep : ∀ (p : Nat × Nat) (c : Cell),
            mgetN (create_blank_matrix cfg.width cfg.height) p = some c →
            c ≠ Cell.empty → mgetN m2 p = some c :=
          fun p c hp hc => hk2 p c (hk1 p c hp hc) hc
        have hprev : ∀ (p : Nat × Nat) (c : Cell), mgetN m2 p = some c →
            c ≠ Cell.empty → c ≠ Cell.boundary →
            mgetN (create_blank_matrix cfg.width cfg.height) p = some Cell.empty := by
          intro p c hp hce hcb
          obtain ⟨c2, hc2⟩ := mgetN_isSome_of_shape
            (hl2.trans hl1) (fun y => (hr2 y).trans (hr1 y)) hp
          rcases hblankcell p c2 hc2 with rfl | rfl
          · exact hc2
          · have := hkeep p Cell.boundary hc2 (by intro hx; cases hx)
            rw [this] at hp
            exact absurd (Option.some_inj.1 hp).symm hcb
        refine ⟨?_, ?_, ?_, ?_, hkeep, ?_, ?_⟩
        · rw [hq2 isAgentCell rfl, hq1 isAgentCell rfl, hblank_ag, hmap_ag, hrep_ag]
          omega
        · rw [hq2 isFoodCell rfl, hq1 isFoodCell rfl, hblank_fd, hmap_fd, hrep_fd]
          omega
        · rw [List.length_map] at he1
          rw [List.length_replicate] at he2
          omega
        · intro a ha
          obtain ⟨p, hp⟩ := hm1 (Cell.agent a) (List.mem_map_of_mem Cell.agent ha)
          exact ⟨p, hk2 p (Cell.agent a) hp (by intro hx; cases hx)⟩
        · intro p e hp
          exact hprev p (Cell.agent e) hp (by intro hx; cases hx) (by intro hx; cases hx)
        · intro p n hp
          exact hprev p (Cell.food n) hp (by intro hx; cases hx) (by intro hx; cases hx)
  · intro cfg herbs rands hcap m2 r2 hok
    unfold setup_initial_state at hok
    dsimp only at hok
    by_cases hlen : herbs.length < 1
    · rw [if_pos hlen] at hok
      cases hok
    · rw [if_neg hlen] at hok
      cases hpl1 : place_list (create_blank_matrix cfg.width cfg.height)
          (herbs.map Cell.agent) rands with
      | error e => rw [hpl1] at hok; cases hok
      | ok outA =>
        obtain ⟨mA, rA⟩ := outA
        rw [hpl1] at hok
        dsimp only at hok
        obtain ⟨-, he1, -, -, -, -⟩ := place_list_ok (hagents_ne herbs) hpl1
        obtain ⟨-, he2, -, -, -, -⟩ :=
          place_list_ok (hfood_ne cfg.herbivore_food_amount cfg.food_nutrition) hok
        rw [List.length_map] at he1
        rw [List.length_replicate] at he2
        omega

/-- C10: for an object absent from the matrix, the public observation
operation does not raise `ObjectNotExistsInEnvironment` (which
`_make_move` raises in the identical situation): `_get_object_coordinates`
returns `None`, which `_get_observation` then dereferences, failing with
an `AttributeError` outside the engine's exception classes. -/
theorem c10_absent_object_observation (m : Grid) (id : Nat)
    (habs : ∀ row ∈ m, ∀ c ∈ row, c ≠ Cell.agent id) :
    get_object_coordinates m id = none ∧
    get_living_object_observation m id = .error .attributeNone ∧
    EnvErr.attributeNone ≠ EnvErr.objectNotExists ∧
    (∀ (cfg : Config) (beh : Beh) (health : Nat → Nat) (nid : Nat)
        (rands : List Coordinates) (mv : Movement),
      make_move cfg beh ⟨m, health, nid⟩ rands mv id = .error .objectNotExists) := by
  have hnone : get_object_coordinates m id = none := goc_none_iff.2 habs
  refine ⟨hnone, ?_, by decide, ?_⟩
  · unfold get_living_object_observation
    rw [hnone]
  · intro cfg beh health nid rands mv
    unfold make_move
    dsimp only
    rw [hnone]

/-- Witness for C10: identity 0 is absent from the 3 by 3 blank matrix;
the observation operation fails with the `AttributeError` embedding while
`_make_move` fails with `ObjectNotExistsInEnvironment`. -/
theorem c10_absent_object_observation_witness :
    get_living_object_observation (create_blank_matrix 3 3) 0 =
      .error .attributeNone ∧
    make_move cfgR behR ⟨create_blank_matrix 3 3, fun _ => 0, 0⟩ [] Movement.up 0 =
      .error .objectNotExists := by
  have h := c10_absent_object_observation (create_blank_matrix 3 3) 0 (by decide)
  exact ⟨h.2.1, h.2.2.2 cfgR behR (fun _ => 0) 0 [] Movement.up⟩

end HP
